import Mathlib

/-!
Verification of the ACNH design-sharing client library.

The definitions below are a shallow embedding of the Python sources:
  * `acnh/designs/api.py`   — design identifier codec and service client,
  * `acnh/designs/encode.py`— design geometry catalog and image codec,
  * `acnh/errors.py`        — error taxonomy.
Machine integers are modelled as `Nat`; fallible Python code (KeyError,
IndexError, struct.error, raised ACNH errors) is modelled with
`Option`/`Except`.  Two helpers that the sources import from modules not
part of this tree (`utils.chunked` and the constants of
`acnh/designs/format.py`) are modelled from the spec, as marked.
-/

/-- Modelled from the spec: `acnh/designs/format.py` is not part of the
source tree; §4.2 fixes `PALETTE_SIZE = 15`. -/
def PALETTE_SIZE : Nat := 15

/-- Modelled from the spec: §4.2 fixes the standard internal layer width. -/
def STANDARD_WIDTH : Nat := 32

/-- Modelled from the spec: §4.2 fixes the standard internal layer height. -/
def STANDARD_HEIGHT : Nat := 32

/-- Modelled from the spec: §4.2, the standard internal layer size
(`SIZE` in `acnh/designs/format.py`). -/
def STANDARD : Nat × Nat := (STANDARD_WIDTH, STANDARD_HEIGHT)

/-- Structural worker for `chunked`; the fuel is an upper bound on the list
length, so it never runs out when started at `l.length`. -/
def chunkedGo (n : Nat) : Nat → List α → List (List α)
  | _, [] => []
  | 0, _ :: _ => []
  | fuel + 1, x :: xs => (x :: xs.take (n - 1)) :: chunkedGo n fuel (xs.drop (n - 1))

/-- Modelled from the spec: `utils.chunked(sequence, n)` (§4.1) produces the
fixed-size slices of length `n` of the input, in order, the final slice
possibly shorter.  Embedded on lists. -/
def chunked (n : Nat) (l : List α) : List (List α) :=
  chunkedGo n l.length l

theorem chunkedGo_eq_chunked (n : Nat) (fuel : Nat) :
    ∀ l : List α, l.length ≤ fuel → chunkedGo n fuel l = chunked n l := by
  induction fuel using Nat.strong_induction_on with
  | _ fuel ih =>
    intro l h
    match fuel, l with
    | f, [] => cases f <;> rfl
    | 0, x :: xs => simp at h
    | fuel + 1, x :: xs =>
      show (x :: xs.take (n - 1)) :: chunkedGo n fuel (xs.drop (n - 1)) = chunked n (x :: xs)
      rw [chunked]
      show _ = (x :: xs.take (n - 1)) :: chunkedGo n xs.length (xs.drop (n - 1))
      have hlt : (xs.drop (n - 1)).length ≤ xs.length := by
        simp only [List.length_drop]; omega
      have hfuel : (xs.drop (n - 1)).length ≤ fuel := by
        simp only [List.length_cons] at h
        omega
      rw [ih fuel (Nat.lt_succ_self _) _ hfuel,
        ih xs.length (by simp only [List.length_cons] at h; omega) _ hlt]

@[simp] theorem chunked_nil (n : Nat) : chunked n ([] : List α) = [] := rfl

theorem chunked_cons (n : Nat) (x : α) (xs : List α) :
    chunked n (x :: xs) = (x :: xs.take (n - 1)) :: chunked n (xs.drop (n - 1)) := by
  rw [chunked]
  show (x :: xs.take (n - 1)) :: chunkedGo n xs.length (xs.drop (n - 1)) = _
  rw [chunkedGo_eq_chunked n xs.length _ (by simp only [List.length_drop]; omega)]

/-! ## Design identifier codec (`acnh/designs/api.py`, `acnh/errors.py`) -/

/-- `InvalidDesignCodeError.DESIGN_CODE_ALPHABET` from `acnh/errors.py`. -/
def DESIGN_CODE_ALPHABET : List Char := "0123456789BCDFGHJKLMNPQRSTVWXY".toList

/-- `InvalidDesignCodeError.DESIGN_CODE_ALPHABET_VALUES[c]`: the index of `c`
in the alphabet, `none` standing for a `KeyError`. -/
def alphabetValue (c : Char) : Option Nat :=
  DESIGN_CODE_ALPHABET.findIdx? (fun x => x == c)

/-- `design_id` from `acnh/designs/api.py`: strip hyphens, then fold
`n = n*30 + alphabet_value(c)` left to right.  `none` models the `KeyError`
raised on a character outside the alphabet. -/
def design_id (design_code : String) : Option Nat :=
  (design_code.data.filter (fun c => c != '-')).foldlM
    (fun n c => (alphabetValue c).map (fun v => n * 30 + v)) 0

/-- Structural worker for `designDigits`; the fuel is an upper bound on the
remaining value, so it never runs out when started at the value itself. -/
def designDigitsGo : Nat → Nat → List Char
  | _, 0 => []
  | 0, _ + 1 => []
  | fuel + 1, n + 1 =>
      DESIGN_CODE_ALPHABET.getD ((n + 1) % 30) '0' :: designDigitsGo fuel ((n + 1) / 30)

/-- The least-significant-first base-30 digit characters collected by the
`while design_id:` loop of `design_code` in `acnh/designs/api.py`. -/
def designDigits (n : Nat) : List Char := designDigitsGo n n

theorem designDigitsGo_eq_designDigits (fuel : Nat) :
    ∀ n : Nat, n ≤ fuel → designDigitsGo fuel n = designDigits n := by
  induction fuel using Nat.strong_induction_on with
  | _ fuel ih =>
    intro n h
    match fuel, n with
    | f, 0 => cases f <;> rfl
    | 0, n + 1 => omega
    | fuel + 1, n + 1 =>
      show _ :: designDigitsGo fuel ((n + 1) / 30) = designDigits (n + 1)
      rw [designDigits]
      show _ = _ :: designDigitsGo n ((n + 1) / 30)
      have hdiv : (n + 1) / 30 < n + 1 := Nat.div_lt_self (Nat.succ_pos n) (by decide)
      rw [ih fuel (Nat.lt_succ_self _) _ (by omega),
        ih n (by omega) _ (by omega)]

@[simp] theorem designDigits_zero : designDigits 0 = [] := rfl

theorem designDigits_succ (n : Nat) :
    designDigits (n + 1)
      = DESIGN_CODE_ALPHABET.getD ((n + 1) % 30) '0' :: designDigits ((n + 1) / 30) := by
  rw [designDigits]
  show _ :: designDigitsGo n ((n + 1) / 30) = _
  have hdiv : (n + 1) / 30 < n + 1 := Nat.div_lt_self (Nat.succ_pos n) (by decide)
  rw [designDigitsGo_eq_designDigits n _ (by omega)]

/-- Python `str.zfill`: left-pad with `'0'` to the requested width. -/
def zfill (s : String) (width : Nat) : String :=
  ⟨List.replicate (width - s.data.length) '0' ++ s.data⟩

/-- Python `'-'.join` on character chunks. -/
def joinHyphens : List (List Char) → List Char
  | [] => []
  | [cs] => cs
  | cs :: cs' :: rest => cs ++ '-' :: joinHyphens (cs' :: rest)

/-- `add_hyphens` from `acnh/designs/api.py`:
`'-'.join(utils.chunked(author_id.zfill(4 * 3), 4))`. -/
def add_hyphens (author_id : String) : String :=
  ⟨joinHyphens (chunked 4 (zfill author_id (4 * 3)).data)⟩

/-- `design_code` from `acnh/designs/api.py`: collect base-30 digits least
significant first, reverse, zero-pad to 12 and hyphenate. -/
def design_code (design_id : Nat) : String :=
  add_hyphens (zfill ⟨(designDigits design_id).reverse⟩ (4 * 3))

/-- Membership in the design-code alphabet, as tested by the character class
`[0123456789BCDFGHJKLMNPQRSTVWXY]` of `InvalidDesignCodeError.regex`. -/
def isAlphabetChar (c : Char) : Bool := DESIGN_CODE_ALPHABET.contains c

/-- `InvalidDesignCodeError.regex.fullmatch`: the regex is
`[A]{4}-[A]{4}-[A]{4}` (three four-character alphabet groups joined by literal
hyphens), so a full match is exactly a 14-character string of that shape. -/
def designCodeFullmatch (s : String) : Bool :=
  match s.data with
  | [a, b, c, d, '-', e, f, g, h, '-', i, j, k, m] =>
      [a, b, c, d, e, f, g, h, i, j, k, m].all isAlphabetChar
  | _ => false

/-! ### Codec lemmas -/

/-- The total digit-value function: `alphabetValue` with default 0. -/
def alphaVal (c : Char) : Nat := (alphabetValue c).getD 0

/-- The pure accumulator fold of `design_id`. -/
def natFold (acc : Nat) (cs : List Char) : Nat :=
  cs.foldl (fun n c => n * 30 + alphaVal c) acc

theorem foldlM_eq_natFold (cs : List Char) (h : ∀ c ∈ cs, (alphabetValue c).isSome) :
    ∀ acc : Nat,
      cs.foldlM (fun n c => (alphabetValue c).map (fun v => n * 30 + v)) acc
        = some (natFold acc cs) := by
  induction cs with
  | nil => intro acc; simp [natFold]
  | cons c cs ih =>
    intro acc
    have hc : (alphabetValue c).isSome := h c (List.mem_cons_self ..)
    obtain ⟨v, hv⟩ := Option.isSome_iff_exists.mp hc
    have hrest : ∀ c' ∈ cs, (alphabetValue c').isSome := fun c' hc' => h c' (List.mem_cons_of_mem _ hc')
    simp only [List.foldlM, hv, Option.map_some', Option.bind_eq_bind, Option.some_bind]
    rw [ih hrest]
    simp [natFold, hv, alphaVal]

theorem alphabet_getD_mem : ∀ i < 30, DESIGN_CODE_ALPHABET.getD i '0' ∈ DESIGN_CODE_ALPHABET := by
  decide

theorem alphaVal_getD : ∀ i < 30, alphaVal (DESIGN_CODE_ALPHABET.getD i '0') = i := by
  decide

theorem alphabetValue_isSome_of_mem : ∀ c ∈ DESIGN_CODE_ALPHABET, (alphabetValue c).isSome := by
  decide

theorem alphabet_no_hyphen : ∀ c ∈ DESIGN_CODE_ALPHABET, c != '-' := by
  decide

theorem designDigits_mem : ∀ n : Nat, ∀ c ∈ designDigits n, c ∈ DESIGN_CODE_ALPHABET
  | 0 => by simp
  | n + 1 => by
    intro c hc
    rw [designDigits_succ] at hc
    rcases List.mem_cons.mp hc with h | h
    · exact h ▸ alphabet_getD_mem _ (Nat.mod_lt _ (by decide))
    · exact designDigits_mem ((n + 1) / 30) c h
termination_by n => n
decreasing_by
  exact Nat.div_lt_self (Nat.succ_pos n) (by decide)

theorem natFold_designDigits : ∀ n : Nat, ∀ acc : Nat,
    natFold acc (designDigits n).reverse = acc * 30 ^ (designDigits n).length + n
  | 0 => by intro acc; simp [natFold]
  | n + 1 => by
    intro acc
    rw [designDigits_succ]
    simp only [List.reverse_cons, List.length_cons, natFold, List.foldl_append]
    have ih := natFold_designDigits ((n + 1) / 30) acc
    simp only [natFold] at ih
    rw [ih]
    simp only [List.foldl_cons, List.foldl_nil,
      alphaVal_getD _ (Nat.mod_lt _ (by decide : (0:Nat) < 30))]
    rw [pow_succ]
    have := Nat.div_add_mod (n + 1) 30
    ring_nf
    omega
termination_by n => n
decreasing_by
  exact Nat.div_lt_self (Nat.succ_pos n) (by decide)

theorem natFold_replicate_zero (k : Nat) : natFold 0 (List.replicate k '0') = 0 := by
  induction k with
  | zero => simp [natFold]
  | succ k ih =>
    rw [List.replicate_succ]
    simpa [natFold, alphaVal, alphabetValue] using ih

theorem chunked_flatten (n : Nat) : ∀ l : List α, (chunked n l).flatten = l
  | [] => by simp
  | x :: xs => by
    rw [chunked_cons]
    simp only [List.flatten_cons]
    rw [chunked_flatten n (xs.drop (n - 1))]
    simp [List.take_append_drop]
termination_by l => l.length
decreasing_by
  simp only [List.length_drop, List.length_cons]
  omega

theorem chunked_cons_of_length_ge (n : Nat) (hn : 0 < n) (l : List α) (h : n ≤ l.length) :
    chunked n l = l.take n :: chunked n (l.drop n) := by
  match l with
  | [] => simp at h; omega
  | x :: xs =>
    rw [chunked_cons]
    obtain ⟨m, rfl⟩ : ∃ m, n = m + 1 := ⟨n - 1, by omega⟩
    simp [List.take_succ_cons, List.drop_succ_cons]

theorem length_le_mul_chunked_length (n : Nat) (hn : 0 < n) :
    ∀ l : List α, l.length ≤ n * (chunked n l).length
  | [] => by simp
  | x :: xs => by
    rw [chunked_cons]
    have ih := length_le_mul_chunked_length n hn (xs.drop (n - 1))
    simp only [List.length_cons, List.length_drop] at *
    have : n * ((chunked n (xs.drop (n - 1))).length + 1)
        = n * (chunked n (xs.drop (n - 1))).length + n := by ring
    omega
termination_by l => l.length
decreasing_by
  simp only [List.length_drop, List.length_cons]
  omega

theorem joinHyphens_length : ∀ css : List (List Char),
    (joinHyphens css).length = css.flatten.length + (css.length - 1)
  | [] => by rw [joinHyphens]; rfl
  | [cs] => by rw [joinHyphens]; simp
  | cs :: cs' :: rest => by
    rw [joinHyphens]
    have ih := joinHyphens_length (cs' :: rest)
    simp only [List.length_append, List.length_cons, List.flatten_cons, ih] at *
    omega

theorem filter_joinHyphens : ∀ css : List (List Char),
    (∀ cs ∈ css, ∀ c ∈ cs, c != '-') →
    (joinHyphens css).filter (fun c => c != '-') = css.flatten
  | [] => by intro _; rw [joinHyphens]; rfl
  | [cs] => by
    intro h
    rw [joinHyphens]
    simp only [List.flatten_cons, List.flatten_nil, List.append_nil]
    exact List.filter_eq_self.mpr (h cs (by simp))
  | cs :: cs' :: rest => by
    intro h
    rw [joinHyphens]
    have ih := filter_joinHyphens (cs' :: rest) (fun a ha => h a (List.mem_cons_of_mem _ ha))
    simp only [List.filter_append, List.filter_cons, List.flatten_cons]
    have : ('-' != '-') = false := by decide
    rw [this]
    simp only [Bool.false_eq_true, if_false, ih,
      List.filter_eq_self.mpr (h cs (List.mem_cons_self ..)), List.flatten_cons]

theorem zfill_of_le (s : String) (w : Nat) (h : w ≤ s.data.length) : zfill s w = s := by
  cases s with
  | mk d =>
    have h' : w ≤ d.length := h
    show (⟨List.replicate (w - d.length) '0' ++ d⟩ : String) = ⟨d⟩
    rw [Nat.sub_eq_zero_of_le h', List.replicate_zero, List.nil_append]

/-- The zero-padded 12-character digit string built inside `design_code`. -/
def paddedDigits (n : Nat) : List Char := (zfill ⟨(designDigits n).reverse⟩ (4 * 3)).data

theorem paddedDigits_eq (n : Nat) :
    paddedDigits n
      = List.replicate (4 * 3 - (designDigits n).length) '0' ++ (designDigits n).reverse := by
  simp [paddedDigits, zfill]

theorem paddedDigits_length (n : Nat) :
    (paddedDigits n).length = 4 * 3 - (designDigits n).length + (designDigits n).length := by
  rw [paddedDigits_eq]
  simp

theorem design_code_data (n : Nat) :
    (design_code n).data = joinHyphens (chunked 4 (paddedDigits n)) := by
  have hlen : 4 * 3 ≤ (zfill ⟨(designDigits n).reverse⟩ (4 * 3)).data.length := by
    show 4 * 3 ≤ (paddedDigits n).length
    rw [paddedDigits_length]
    omega
  rw [design_code, add_hyphens, zfill_of_le _ _ hlen]
  rfl

theorem paddedDigits_mem (n : Nat) : ∀ c ∈ paddedDigits n, c ∈ DESIGN_CODE_ALPHABET := by
  intro c hc
  rw [paddedDigits_eq] at hc
  rcases List.mem_append.mp hc with h | h
  · rw [List.eq_of_mem_replicate h]
    decide
  · exact designDigits_mem n c (List.mem_reverse.mp h)

theorem natFold_paddedDigits (n : Nat) : natFold 0 (paddedDigits n) = n := by
  rw [paddedDigits_eq, natFold, List.foldl_append]
  have hz := natFold_replicate_zero (4 * 3 - (designDigits n).length)
  rw [natFold] at hz
  rw [hz]
  have := natFold_designDigits n 0
  rw [natFold] at this
  rw [this]
  simp

/-- Shared round-trip core: decoding any emitted code recovers the identifier,
with no bound on its size. -/
theorem design_id_design_code (n : Nat) : design_id (design_code n) = some n := by
  rw [design_id, design_code_data]
  have hmem : ∀ c ∈ joinHyphens (chunked 4 (paddedDigits n)), True := fun _ _ => trivial
  have hchunks : ∀ cs ∈ chunked 4 (paddedDigits n), ∀ c ∈ cs, c != '-' := by
    intro cs hcs c hc
    have hpad : c ∈ paddedDigits n := by
      rw [← chunked_flatten 4 (paddedDigits n)]
      exact List.mem_flatten.mpr ⟨cs, hcs, hc⟩
    exact alphabet_no_hyphen c (paddedDigits_mem n c hpad)
  rw [filter_joinHyphens _ hchunks, chunked_flatten]
  rw [foldlM_eq_natFold _ (fun c hc => alphabetValue_isSome_of_mem c (paddedDigits_mem n c hc))]
  rw [natFold_paddedDigits]

theorem designDigits_length_le (k : Nat) :
    ∀ n : Nat, n < 30 ^ k → (designDigits n).length ≤ k := by
  induction k with
  | zero =>
    intro n h
    have : n = 0 := by simpa using h
    subst this
    simp
  | succ k ih =>
    intro n h
    match n with
    | 0 => simp
    | m + 1 =>
      rw [designDigits_succ]
      simp only [List.length_cons]
      have hdiv : (m + 1) / 30 < 30 ^ k := by
        rw [Nat.div_lt_iff_lt_mul (by decide : (0:Nat) < 30)]
        calc m + 1 < 30 ^ (k + 1) := h
          _ = 30 ^ k * 30 := by rw [pow_succ]
      exact Nat.succ_le_succ (ih _ hdiv)

theorem lt_pow_designDigits_length : ∀ n : Nat, n < 30 ^ (designDigits n).length
  | 0 => by simp
  | n + 1 => by
    rw [designDigits_succ]
    simp only [List.length_cons]
    have ih := lt_pow_designDigits_length ((n + 1) / 30)
    calc n + 1 = 30 * ((n + 1) / 30) + (n + 1) % 30 := (Nat.div_add_mod _ _).symm
      _ < 30 * ((n + 1) / 30) + 30 := by
          have := Nat.mod_lt (n + 1) (by decide : (0:Nat) < 30)
          omega
      _ = 30 * ((n + 1) / 30 + 1) := by ring
      _ ≤ 30 * 30 ^ (designDigits ((n + 1) / 30)).length := Nat.mul_le_mul_left _ ih
      _ = 30 ^ ((designDigits ((n + 1) / 30)).length + 1) := by rw [pow_succ, Nat.mul_comm]
termination_by n => n
decreasing_by
  exact Nat.div_lt_self (Nat.succ_pos n) (by decide)

theorem paddedDigits_length_twelve (n : Nat) (h : n < 30 ^ 12) :
    (paddedDigits n).length = 12 := by
  have := designDigits_length_le 12 n h
  rw [paddedDigits_length]
  omega

theorem length_eq_four {l : List α} (h : l.length = 4) :
    ∃ a b c d : α, l = [a, b, c, d] := by
  match l with
  | [a, b, c, d] => exact ⟨a, b, c, d, rfl⟩
  | [] | [_] | [_, _] | [_, _, _] => simp at h
  | _ :: _ :: _ :: _ :: _ :: _ =>
    simp only [List.length_cons] at h
    omega

theorem chunked4_twelve (l : List α) (h : l.length = 12) :
    chunked 4 l = [l.take 4, (l.drop 4).take 4, l.drop 8] := by
  rw [chunked_cons_of_length_ge 4 (by decide) l (by omega)]
  rw [chunked_cons_of_length_ge 4 (by decide) (l.drop 4)
    (by simp only [List.length_drop]; omega)]
  rw [List.drop_drop]
  rw [chunked_cons_of_length_ge 4 (by decide) (l.drop (4 + 4))
    (by simp only [List.length_drop]; omega)]
  rw [List.drop_drop]
  have hnil : l.drop (4 + (4 + 4)) = [] :=
    List.drop_eq_nil_of_le (by omega)
  rw [hnil, chunked_nil]
  have h8 : l.drop (4 + 4) = l.drop 8 := by norm_num
  have htake : (l.drop 8).take 4 = l.drop 8 :=
    List.take_of_length_le (by simp only [List.length_drop]; omega)
  rw [h8, htake]

theorem isAlphabetChar_of_mem {c : Char} (h : c ∈ DESIGN_CODE_ALPHABET) :
    isAlphabetChar c = true :=
  List.elem_eq_true_of_mem h

theorem fullmatch_of_groups (g1 g2 g3 : List Char)
    (h1 : g1.length = 4) (h2 : g2.length = 4) (h3 : g3.length = 4)
    (halph : ∀ c ∈ g1 ++ g2 ++ g3, c ∈ DESIGN_CODE_ALPHABET) :
    designCodeFullmatch ⟨joinHyphens [g1, g2, g3]⟩ = true := by
  obtain ⟨a, b, c, d, rfl⟩ := length_eq_four h1
  obtain ⟨e, f, g, h, rfl⟩ := length_eq_four h2
  obtain ⟨i, j, k, m, rfl⟩ := length_eq_four h3
  show [a, b, c, d, e, f, g, h, i, j, k, m].all isAlphabetChar = true
  simp only [List.all_eq_true]
  intro x hx
  apply isAlphabetChar_of_mem
  apply halph
  simp only [List.append_assoc, List.mem_append, List.mem_cons, List.not_mem_nil] at hx ⊢
  tauto

theorem design_code_shape (id : Nat) (h : id < 30 ^ 12) :
    (design_code id).data.length = 14 ∧ designCodeFullmatch (design_code id) = true := by
  have hd := design_code_data id
  have h12 : (paddedDigits id).length = 12 := paddedDigits_length_twelve id h
  have hch := chunked4_twelve (paddedDigits id) h12
  have hflat : (chunked 4 (paddedDigits id)).flatten = paddedDigits id :=
    chunked_flatten 4 (paddedDigits id)
  constructor
  · rw [hd, joinHyphens_length, hflat, hch, h12]
    simp
  · have heq : design_code id = ⟨joinHyphens (chunked 4 (paddedDigits id))⟩ := by
      rw [← hd]
    rw [heq, hch]
    apply fullmatch_of_groups
    · rw [List.length_take, h12]
      norm_num
    · rw [List.length_take, List.length_drop, h12]
      norm_num
    · rw [List.length_drop, h12]
    · intro c hc
      apply paddedDigits_mem
      simp only [List.mem_append] at hc
      rcases hc with (hc | hc) | hc
      · exact List.take_subset _ _ hc
      · exact List.drop_subset _ _ (List.take_subset _ _ hc)
      · exact List.drop_subset _ _ hc

/-- C1: for every identifier `id` in `[0, 30^12)`, `design_id (design_code id)`
recovers `id`; `design_code id` is exactly 14 characters and matches the
three-groups-of-four design-code pattern over the 30-symbol alphabet; in
particular `design_code 0 = "0000-0000-0000"` and decoding it yields 0. -/
theorem C1_design_code_roundtrip (id : Nat) (h : id < 30 ^ 12) :
    (design_id (design_code id) = some id
      ∧ (design_code id).data.length = 14
      ∧ designCodeFullmatch (design_code id) = true)
    ∧ design_code 0 = "0000-0000-0000"
    ∧ design_id "0000-0000-0000" = some 0 := by
  refine ⟨⟨design_id_design_code id, (design_code_shape id h).1, (design_code_shape id h).2⟩,
    rfl, by decide⟩

/-- Witness for C1 at the concrete identifier 12345. -/
theorem C1_design_code_roundtrip_witness :
    (design_id (design_code 12345) = some 12345
      ∧ (design_code 12345).data.length = 14
      ∧ designCodeFullmatch (design_code 12345) = true)
    ∧ design_code 0 = "0000-0000-0000"
    ∧ design_id "0000-0000-0000" = some 0 :=
  C1_design_code_roundtrip 12345 (by norm_num)

theorem designDigits_length_ge (n : Nat) (h : 30 ^ 12 ≤ n) :
    13 ≤ (designDigits n).length := by
  have hlt : 30 ^ 12 < 30 ^ (designDigits n).length :=
    lt_of_le_of_lt h (lt_pow_designDigits_length n)
  have := (Nat.pow_lt_pow_iff_right (by norm_num : 1 < 30)).mp hlt
  omega

/-- C9 (implicit): `design_code` applies no range check — it succeeds on every
non-negative integer and remains a left inverse of `design_id` even beyond
`30^12`; for identifiers at or above `30^12` the emitted code is longer than
the documented 14 characters. -/
theorem C9_design_code_unbounded :
    (∀ n : Nat, design_id (design_code n) = some n)
    ∧ (∀ n : Nat, 30 ^ 12 ≤ n → 14 < (design_code n).data.length) := by
  refine ⟨design_id_design_code, ?_⟩
  intro n h
  have h13 : 13 ≤ (designDigits n).length := designDigits_length_ge n h
  have hpadlen : 13 ≤ (paddedDigits n).length := by
    rw [paddedDigits_length]
    omega
  have hcount : 13 ≤ 4 * (chunked 4 (paddedDigits n)).length := by
    calc 13 ≤ (paddedDigits n).length := hpadlen
      _ ≤ 4 * (chunked 4 (paddedDigits n)).length :=
        length_le_mul_chunked_length 4 (by decide) _
  rw [design_code_data, joinHyphens_length, chunked_flatten]
  omega

/-- Witness for C9: the round trip at 7, and the over-long code at `30^12`. -/
theorem C9_design_code_unbounded_witness :
    design_id (design_code 7) = some 7
      ∧ 14 < (design_code (30 ^ 12)).data.length :=
  ⟨C9_design_code_unbounded.1 7, C9_design_code_unbounded.2 (30 ^ 12) (Nat.le_refl _)⟩

/-! ## Error taxonomy (`acnh/errors.py` and the duplicate kinds in
`acnh/designs/encode.py`) -/

/-- `Layer` from `acnh/designs/encode.py`: a named rectangle (width, height). -/
structure Layer where
  name : String
  size : Nat × Nat
deriving DecidableEq, Repr

/-- The ACNH error kinds raised by the code paths under verification.  The
`...Enc` constructors are the duplicate declarations local to
`acnh/designs/encode.py`, which carry their own numeric codes (27/28/37/38)
distinct from the canonical 2xx/3xx taxonomy of `acnh/errors.py`. -/
inductive AcnhErr where
  | unknownDesignCode
  | invalidDesignCode
  | invalidPaletteEnc
  | invalidLayerSizeEnc (layer_name : String)
  | invalidLayerNameEnc (valid_layer_names : List String)
  | missingLayerEnc (layer : Layer)
deriving DecidableEq, Repr

/-- The `code` class attribute of each raised kind. -/
def AcnhErr.code : AcnhErr → Nat
  | .unknownDesignCode => 201
  | .invalidDesignCode => 202
  | .invalidPaletteEnc => 27
  | .invalidLayerSizeEnc _ => 28
  | .invalidLayerNameEnc _ => 37
  | .missingLayerEnc _ => 38

/-- The `http_status` class attribute; `none` when the class never assigns one
(`InvalidLayerSizeError` in `acnh/designs/encode.py` has no `http_status`). -/
def AcnhErr.http_status : AcnhErr → Option Nat
  | .unknownDesignCode => some 404
  | .invalidDesignCode => some 400
  | .invalidPaletteEnc => some 400
  | .invalidLayerSizeEnc _ => none
  | .invalidLayerNameEnc _ => some 400
  | .missingLayerEnc _ => some 400

/-- A Python exception: either a domain `AcnhErr` or a non-ACNH runtime error
(`KeyError`, `IndexError`, `struct.error`, ...). -/
inductive PyErr where
  | acnh (e : AcnhErr)
  | runtimeFault
deriving DecidableEq, Repr

/-- Values stored in the structured `to_dict` reports. -/
inductive PyVal where
  | str (s : String)
  | nat (n : Nat)
  | natPair (p : Nat × Nat)
  | strList (l : List String)
deriving DecidableEq, Repr

/-- `d[k] = v` on a Python dict: replace in place if the key exists,
append otherwise. -/
def dictSet (d : List (String × PyVal)) (k : String) (v : PyVal) :
    List (String × PyVal) :=
  if (d.lookup k).isSome then d.map (fun kv => if kv.1 = k then (k, v) else kv)
  else d ++ [(k, v)]

/-- `ACNHError.to_dict` from `acnh/errors.py`: reads `self.message`,
`self.code` and `self.http_status`; `.error ()` models the `AttributeError`
raised when the class never assigned an `http_status`. -/
def ACNHError.to_dict (message : String) (code : Nat) (http_status : Option Nat) :
    Except Unit (List (String × PyVal)) :=
  match http_status with
  | some hs => .ok [("error", .str message), ("error_code", .nat code), ("http_status", .nat hs)]
  | none => .error ()

/-- The `message` class attribute (template text for the templated kinds). -/
def AcnhErr.message : AcnhErr → String
  | .unknownDesignCode => "unknown design code"
  | .invalidDesignCode => "invalid design code"
  | .invalidPaletteEnc => "the combined palette of all layers exceed 15 colors"
  | .invalidLayerSizeEnc _ =>
      "layer \"{0.layer.name}\" did not meet the expected size ({0.layer.size[0]}×{0.layer.size[1]})"
  | .invalidLayerNameEnc _ => "Invalid image layer name."
  | .missingLayerEnc _ =>
      "Payload was missing one or more layers. First missing layer: \"{0.layer.name}\""

/-- `message.format(self)` for `MissingLayerError`. -/
def missingLayerFormatted (l : Layer) : String :=
  "Payload was missing one or more layers. First missing layer: \"" ++ l.name ++ "\""

/-- The structured report of each raised kind, following the `to_dict`
overrides of `acnh/designs/encode.py` and `acnh/errors.py`. -/
def AcnhErr.to_dict : AcnhErr → Except Unit (List (String × PyVal))
  | .invalidLayerNameEnc ns => do
      let d ← ACNHError.to_dict (AcnhErr.message (.invalidLayerNameEnc ns)) 37 (some 400)
      pure (dictSet d "valid_layer_names" (.strList ns))
  | .missingLayerEnc l => do
      let d ← ACNHError.to_dict (AcnhErr.message (.missingLayerEnc l)) 38 (some 400)
      let d := dictSet d "layer_name" (.str l.name)
      let d := dictSet d "layer_size" (.natPair l.size)
      pure (dictSet d "error" (.str (missingLayerFormatted l)))
  | e => ACNHError.to_dict e.message e.code e.http_status

/-! ## Remote client operations (`acnh/designs/api.py`) -/

/-- `InvalidFormatError.validate` specialised to `InvalidDesignCodeError`:
return the input unchanged on a full regex match, raise the kind otherwise. -/
def InvalidDesignCodeError.validate (s : String) : Except AcnhErr String :=
  if designCodeFullmatch s then .ok s else .error .invalidDesignCode

/-- The `accepts_design_id` normalization: a string is validated as a design
code and converted with `design_id`; an integer is passed through. -/
def normalizeDesignId (x : String ⊕ Nat) : Except PyErr Nat :=
  match x with
  | .inr n => .ok n
  | .inl s =>
    match InvalidDesignCodeError.validate s with
    | .error e => .error (.acnh e)
    | .ok s' =>
      match design_id s' with
      | some n => .ok n
      | none => .error .runtimeFault

/-- `delete_design`: normalize the identifier, issue the delete request, and
raise `UnknownDesignCodeError` exactly when the response status is 404
(`HTTPStatus.NOT_FOUND`).  The function is parametrised by the HTTP status
the service returned for the request; no other status is inspected. -/
def delete_design (x : String ⊕ Nat) (status : Nat) : Except PyErr Unit :=
  match normalizeDesignId x with
  | .error e => .error e
  | .ok _ => if status = 404 then .error (.acnh .unknownDesignCode) else .ok ()

theorem designCodeFullmatch_eq_false {s : String} (h : s.data.length ≠ 14) :
    designCodeFullmatch s = false := by
  rw [designCodeFullmatch]
  split
  · rename_i heq
    exfalso
    apply h
    rw [heq]
    rfl
  · rfl

theorem add_hyphens_twelve (l : List Char) (hlen : l.length = 12) :
    add_hyphens ⟨l⟩ = ⟨joinHyphens [l.take 4, (l.drop 4).take 4, l.drop 8]⟩ := by
  rw [add_hyphens, zfill_of_le _ _ (by simp [hlen])]
  rw [show (String.mk l).data = l from rfl, chunked4_twelve l hlen]

/-- C3 counterexample: the valid 12 symbols `"000000000000"` supplied without
hyphens are rejected by the identifier normalization (and hence by
`delete_design`) with `InvalidDesignCodeError`, instead of being accepted. -/
theorem C3_counterexample :
    normalizeDesignId (.inl "000000000000") = .error (.acnh .invalidDesignCode)
      ∧ delete_design (.inl "000000000000") 200 = .error (.acnh .invalidDesignCode) :=
  ⟨rfl, rfl⟩

/-- C3 amended: hyphens are not optional on input.  The design-code regex
requires the two hyphens, so a valid 12-symbol code without hyphens raises
`InvalidDesignCodeError` in every identifier-accepting operation, while the
hyphenated form of the same symbols is accepted and converted to the numeric
identifier. -/
theorem C3_hyphens_required (l : List Char) (hlen : l.length = 12)
    (halph : ∀ c ∈ l, c ∈ DESIGN_CODE_ALPHABET) :
    normalizeDesignId (.inl ⟨l⟩) = .error (.acnh .invalidDesignCode)
      ∧ ∃ n, normalizeDesignId (.inl (add_hyphens ⟨l⟩)) = .ok n
        ∧ design_id (add_hyphens ⟨l⟩) = some n := by
  constructor
  · have hfalse : designCodeFullmatch ⟨l⟩ = false :=
      designCodeFullmatch_eq_false (by rw [show (String.mk l).data = l from rfl, hlen]; omega)
    simp [normalizeDesignId, InvalidDesignCodeError.validate, hfalse]
  · have hj := add_hyphens_twelve l hlen
    have hmem' : ∀ c ∈ l.take 4 ++ ((l.drop 4).take 4 ++ l.drop 8), c ∈ DESIGN_CODE_ALPHABET := by
      intro c hc
      rcases List.mem_append.mp hc with hc | hc
      · exact halph c (List.take_subset _ _ hc)
      · rcases List.mem_append.mp hc with hc | hc
        · exact halph c (List.drop_subset _ _ (List.take_subset _ _ hc))
        · exact halph c (List.drop_subset _ _ hc)
    have hmatch : designCodeFullmatch (add_hyphens ⟨l⟩) = true := by
      rw [hj]
      apply fullmatch_of_groups
      · rw [List.length_take, hlen]; norm_num
      · rw [List.length_take, List.length_drop, hlen]; norm_num
      · rw [List.length_drop, hlen]
      · intro c hc
        apply hmem'
        simpa [List.append_assoc] using hc
    have hflat3 : ([l.take 4, (l.drop 4).take 4, l.drop 8] : List (List Char)).flatten = l := by
      rw [← chunked4_twelve l hlen, chunked_flatten]
    have hid : design_id (add_hyphens ⟨l⟩) = some (natFold 0 l) := by
      rw [design_id, hj]
      have hfil : (joinHyphens [l.take 4, (l.drop 4).take 4, l.drop 8]).filter
          (fun c => c != '-') = l := by
        have hh : ∀ cs ∈ ([l.take 4, (l.drop 4).take 4, l.drop 8] : List (List Char)),
            ∀ c ∈ cs, c != '-' := by
          intro cs hcs c hc
          apply alphabet_no_hyphen
          apply hmem'
          simp only [List.mem_cons, List.not_mem_nil, or_false] at hcs
          rcases hcs with rfl | rfl | rfl
          · exact List.mem_append.mpr (Or.inl hc)
          · exact List.mem_append.mpr (Or.inr (List.mem_append.mpr (Or.inl hc)))
          · exact List.mem_append.mpr (Or.inr (List.mem_append.mpr (Or.inr hc)))
        rw [filter_joinHyphens _ hh, hflat3]
      rw [show (String.mk (joinHyphens [l.take 4, (l.drop 4).take 4, l.drop 8])).data
        = joinHyphens [l.take 4, (l.drop 4).take 4, l.drop 8] from rfl]
      rw [hfil]
      rw [foldlM_eq_natFold l (fun c hc => alphabetValue_isSome_of_mem c (halph c hc))]
    refine ⟨natFold 0 l, ?_, hid⟩
    rw [normalizeDesignId]
    rw [show InvalidDesignCodeError.validate (add_hyphens ⟨l⟩) = .ok (add_hyphens ⟨l⟩) from by
      rw [InvalidDesignCodeError.validate, hmatch]; rfl]
    simp [hid]

/-- Witness for the amended C3 at the 12 symbols `0123456789BC`. -/
theorem C3_hyphens_required_witness :
    normalizeDesignId (.inl ⟨"0123456789BC".toList⟩) = .error (.acnh .invalidDesignCode)
      ∧ ∃ n, normalizeDesignId (.inl (add_hyphens ⟨"0123456789BC".toList⟩)) = .ok n
        ∧ design_id (add_hyphens ⟨"0123456789BC".toList⟩) = some n :=
  C3_hyphens_required "0123456789BC".toList (by decide) (by decide)

/-- C6 counterexample: a delete request answered with HTTP 500 does not
propagate any failure — `delete_design` returns normally, so a non-404
non-success status is silently swallowed rather than raised. -/
theorem C6_counterexample : delete_design (.inr 1) 500 = .ok () := rfl

/-- C6 amended: `delete_design` raises the unknown-design-code kind
(code 201) exactly when the service responds 404; every other response
status — success or failure — is ignored and the call returns normally
(the source never calls `raise_for_status` after the delete request). -/
theorem C6_delete_status (id status : Nat) :
    (delete_design (.inr id) status = .error (.acnh .unknownDesignCode) ↔ status = 404)
      ∧ (status ≠ 404 → delete_design (.inr id) status = .ok ())
      ∧ AcnhErr.code .unknownDesignCode = 201 := by
  refine ⟨⟨?_, ?_⟩, ?_, rfl⟩
  · intro h
    by_contra hne
    simp [delete_design, normalizeDesignId, hne] at h
  · intro h
    simp [delete_design, normalizeDesignId, h]
  · intro h
    simp [delete_design, normalizeDesignId, h]

/-- Witness for the amended C6 at identifier 7: a 404 raises the kind with
code 201 and a 503 returns normally. -/
theorem C6_delete_status_witness :
    delete_design (.inr 7) 404 = .error (.acnh .unknownDesignCode)
      ∧ delete_design (.inr 7) 503 = .ok () :=
  ⟨(C6_delete_status 7 404).1.mpr rfl, (C6_delete_status 7 503).2.1 (by decide)⟩

/-! ## Design geometry catalog (`acnh/designs/encode.py`) -/

/-- `LayerCorrespondence` from `acnh/designs/encode.py`. -/
structure LayerCorrespondence where
  internal_idx : Nat
  external_name : String
  internal_pos : Nat × Nat
  external_pos : Nat × Nat
  dimensions : Nat × Nat
deriving DecidableEq, Repr

/-- A registered design type: the class-level declarations of a `Design`
subclass (`__init_subclass__` fills in the kebab-case name, the defaulted
internal layers and the absent correspondence). -/
structure DesignType where
  name : String
  type_code : Nat
  external_layers : List Layer
  internal_layers : List Layer
  correspondence : Option (List LayerCorrespondence)
deriving DecidableEq, Repr

/-- `internal_layers` default: `[Layer(str(i), l.size) for i, l in
enumerate(cls.external_layers)]`. -/
def defaultInternalLayers (ext : List Layer) : List Layer :=
  ext.enum.map (fun p => ⟨toString p.1, p.2.size⟩)

/-- `Layer * k` via `LayerMeta.__mul__`: `k` standard 32×32 slots named by
index. -/
def standardLayerList (k : Nat) : List Layer :=
  (List.range k).map (fun i => ⟨toString i, STANDARD⟩)

/-- `one_to_one`: a type with no correspondence list. -/
def DesignType.one_to_one (t : DesignType) : Bool := t.correspondence.isNone

/-- `Design.pro`: more than one internal layer. -/
def DesignType.pro (t : DesignType) : Bool := decide (1 < t.internal_layers.length)

/-- A raster image: pixel dimensions plus a total color function (the color
value of the pixel at column `x`, row `y`). -/
structure Img where
  width : Nat
  height : Nat
  px : Nat → Nat → Nat

/-- `Layer.validate`: raise `InvalidLayerSizeError(self.name)` when the image
size differs from the declared size. -/
def Layer.validate (l : Layer) (img : Img) : Except AcnhErr Unit :=
  if (img.width, img.height) ≠ l.size then .error (.invalidLayerSizeEnc l.name) else .ok ()

/-- The `for layer_name, layer in self.external_layer_names.items()` loop of
`Design.validate`: a `KeyError` on lookup raises `MissingLayerError(layer)`,
a present layer is size-checked.  (Each registered type declares pairwise
distinct external layer names, so iterating the declaration list is the same
as iterating the name dict.) -/
def validateLayers (imgs : List (String × Img)) : List Layer → Except AcnhErr Unit
  | [] => .ok ()
  | l :: rest =>
    match imgs.lookup l.name with
    | none => .error (.missingLayerEnc l)
    | some img =>
      match l.validate img with
      | .error e => .error e
      | .ok _ => validateLayers imgs rest

/-- `Design.validate`: check every declared external layer, then raise
`InvalidLayerNameError` when more images were supplied than declared. -/
def Design.validate (t : DesignType) (imgs : List (String × Img)) : Except AcnhErr Unit :=
  match validateLayers imgs t.external_layers with
  | .error e => .error e
  | .ok _ =>
    if t.external_layers.length < imgs.length
    then .error (.invalidLayerNameEnc (t.external_layers.map (fun l => l.name)))
    else .ok ()

/-- Wand image slicing `src[x : x + w, y : y + h]`: the slice clips at the
image bounds. -/
def Img.crop (src : Img) (x y w h : Nat) : Img :=
  { width := min (x + w) src.width - x,
    height := min (y + h) src.height - y,
    px := fun i j => src.px (x + i) (y + j) }

/-- `dst.composite(src, left, top)`: paste `src` over `dst` at the given
offset; pixels outside the pasted rectangle keep their old value. -/
def Img.compositeAt (dst src : Img) (dx dy : Nat) : Img :=
  { dst with px := fun i j =>
      if dx ≤ i ∧ i < dx + src.width ∧ dy ≤ j ∧ j < dy + src.height
      then src.px (i - dx) (j - dy) else dst.px i j }

/-- `Design.copy`: crop the source rectangle and composite it at the
destination position. -/
def Design.copy (dst src : Img) (dst_position src_position dims : Nat × Nat) : Img :=
  dst.compositeAt (src.crop src_position.1 src_position.2 dims.1 dims.2)
    dst_position.1 dst_position.2

/-- `Layer.as_wand`: a fresh fully transparent canvas of the layer's size
(color value 0 everywhere). -/
def Layer.as_wand (l : Layer) : Img :=
  { width := l.size.1, height := l.size.2, px := fun _ _ => 0 }

/-- The correspondence-replay loop of `Design.internalize`; `.runtimeFault`
models the `IndexError`/`KeyError` on a bad internal index or external name. -/
def applyCorrespondences (imgs : List (String × Img)) :
    List LayerCorrespondence → List Img → Except PyErr (List Img)
  | [], out => .ok out
  | c :: rest, out =>
    match out.get? c.internal_idx, imgs.lookup c.external_name with
    | some dst, some src =>
        applyCorrespondences imgs rest
          (out.set c.internal_idx
            (Design.copy dst src c.internal_pos c.external_pos c.dimensions))
    | _, _ => .error .runtimeFault

/-- `Design.internalize`: a one-to-one type returns
`list(self.layer_images.values())` — the supplied images in mapping insertion
order; otherwise every correspondence entry is replayed over fresh blank
internal canvases. -/
def Design.internalize (t : DesignType) (imgs : List (String × Img)) :
    Except PyErr (List Img) :=
  match t.correspondence with
  | none => .ok (imgs.map (fun p => p.2))
  | some cs => applyCorrespondences imgs cs (t.internal_layers.map Layer.as_wand)

/-! ### The registered types -/

def SHORT_SLEEVE : Nat × Nat := (22, 13)
def LONG_SLEEVE : Nat × Nat := (22, 22)
def WIDE_SLEEVE : Nat × Nat := (30, 22)
def LONG_BODY : Nat × Nat := (32, 41)

def STANDARD_BODY_LAYERS : List Layer := [⟨"back", STANDARD⟩, ⟨"front", STANDARD⟩]

def LONG_BODY_LAYERS : List Layer := [⟨"back", LONG_BODY⟩, ⟨"front", LONG_BODY⟩]

def SHORT_SLEEVE_LAYERS : List Layer :=
  [⟨"right-sleeve", SHORT_SLEEVE⟩, ⟨"left-sleeve", SHORT_SLEEVE⟩]

def LONG_SLEEVE_LAYERS : List Layer :=
  [⟨"right-sleeve", LONG_SLEEVE⟩, ⟨"left-sleeve", LONG_SLEEVE⟩]

def WIDE_SLEEVE_LAYERS : List Layer :=
  [⟨"right-sleeve", WIDE_SLEEVE⟩, ⟨"left-sleeve", WIDE_SLEEVE⟩]

def SHORT_SLEEVE_CORRESPONDENCE : List LayerCorrespondence :=
  [⟨2, "right-sleeve", (5, 10), (0, 0), SHORT_SLEEVE⟩,
   ⟨3, "left-sleeve", (5, 10), (0, 0), SHORT_SLEEVE⟩]

def LONG_SLEEVE_CORRESPONDENCE : List LayerCorrespondence :=
  [⟨2, "right-sleeve", (1, 10), (0, 0), LONG_SLEEVE⟩,
   ⟨3, "left-sleeve", (1, 10), (0, 0), LONG_SLEEVE⟩]

def WIDE_SLEEVE_CORRESPONDENCE : List LayerCorrespondence :=
  [⟨2, "right-sleeve", (1, 10), (0, 0), WIDE_SLEEVE⟩,
   ⟨3, "left-sleeve", (1, 10), (0, 0), WIDE_SLEEVE⟩]

def STANDARD_BODY_CORRESPONDENCE : List LayerCorrespondence :=
  [⟨0, "back", (0, 0), (0, 0), STANDARD⟩,
   ⟨1, "front", (0, 0), (0, 0), STANDARD⟩]

def LONG_BODY_CORRESPONDENCE : List LayerCorrespondence :=
  [⟨0, "front", (0, 0), (0, 0), STANDARD⟩,
   ⟨2, "front", (0, 0), (0, 32), (32, 9)⟩,
   ⟨1, "back", (0, 0), (0, 0), STANDARD⟩,
   ⟨3, "back", (0, 0), (0, 32), (32, 9)⟩]

def BasicDesign : DesignType :=
  { name := "basic-design", type_code := 99,
    external_layers := [⟨"0", STANDARD⟩],
    internal_layers := defaultInternalLayers [⟨"0", STANDARD⟩],
    correspondence := none }

def TankTop : DesignType :=
  { name := "tank-top", type_code := 102,
    external_layers := STANDARD_BODY_LAYERS,
    internal_layers := defaultInternalLayers STANDARD_BODY_LAYERS,
    correspondence := none }

def ShortSleeveTee : DesignType :=
  { name := "short-sleeve-tee", type_code := 101,
    external_layers := STANDARD_BODY_LAYERS ++ SHORT_SLEEVE_LAYERS,
    internal_layers := standardLayerList 4,
    correspondence := some (STANDARD_BODY_CORRESPONDENCE ++ SHORT_SLEEVE_CORRESPONDENCE) }

def LongSleeveDressShirt : DesignType :=
  { name := "long-sleeve-dress-shirt", type_code := 100,
    external_layers := STANDARD_BODY_LAYERS ++ LONG_SLEEVE_LAYERS,
    internal_layers := standardLayerList 4,
    correspondence := some (STANDARD_BODY_CORRESPONDENCE ++ LONG_SLEEVE_CORRESPONDENCE) }

def Sweater : DesignType := { LongSleeveDressShirt with name := "sweater", type_code := 103 }

def Hoodie : DesignType := { LongSleeveDressShirt with name := "hoodie", type_code := 104 }

def SleevelessDress : DesignType :=
  { name := "sleeveless-dress", type_code := 107,
    external_layers := LONG_BODY_LAYERS,
    internal_layers := standardLayerList 4,
    correspondence := some LONG_BODY_CORRESPONDENCE }

def Coat : DesignType :=
  { name := "coat", type_code := 105,
    external_layers := LONG_BODY_LAYERS ++ LONG_SLEEVE_LAYERS,
    internal_layers := defaultInternalLayers (LONG_BODY_LAYERS ++ LONG_SLEEVE_LAYERS),
    correspondence := some (LONG_BODY_CORRESPONDENCE ++ LONG_SLEEVE_CORRESPONDENCE) }

def ShortSleeveDress : DesignType :=
  { name := "short-sleeve-dress", type_code := 106,
    external_layers := LONG_BODY_LAYERS ++ SHORT_SLEEVE_LAYERS,
    internal_layers := standardLayerList 4,
    correspondence := some (LONG_BODY_CORRESPONDENCE ++ SHORT_SLEEVE_CORRESPONDENCE) }

def LongSleeveDress : DesignType := { Coat with name := "long-sleeve-dress", type_code := 108 }

def RoundDress : DesignType := { ShortSleeveDress with name := "round-dress", type_code := 110 }

def BalloonHemDress : DesignType :=
  { ShortSleeveDress with name := "balloon-hem-dress", type_code := 109 }

def Robe : DesignType :=
  { name := "robe", type_code := 111,
    external_layers := LONG_BODY_LAYERS ++ WIDE_SLEEVE_LAYERS,
    internal_layers := standardLayerList 4,
    correspondence := some (LONG_BODY_CORRESPONDENCE ++ WIDE_SLEEVE_CORRESPONDENCE) }

def BrimmedCap : DesignType :=
  { name := "brimmed-cap", type_code := 112,
    external_layers := [⟨"front", (44, 41)⟩, ⟨"back", (20, 44)⟩, ⟨"brim", (44, 21)⟩],
    internal_layers := standardLayerList 4,
    correspondence := some
      [⟨0, "front", (0, 0), (0, 0), STANDARD⟩,
       ⟨1, "front", (0, 0), (32, 0), (12, 32)⟩,
       ⟨2, "front", (0, 0), (0, 32), (32, 9)⟩,
       ⟨3, "front", (0, 0), (32, 32), (12, 9)⟩,
       ⟨1, "back", (12, 0), (0, 0), (20, 32)⟩,
       ⟨3, "back", (12, 0), (0, 32), (20, 12)⟩,
       ⟨2, "brim", (0, 11), (0, 0), (32, 21)⟩,
       ⟨3, "brim", (0, 11), (32, 0), (12, 21)⟩] }

def KnitCap : DesignType :=
  { name := "knit-cap", type_code := 113,
    external_layers := [⟨"cap", (64, 53)⟩],
    internal_layers := [⟨"0", STANDARD⟩, ⟨"1", STANDARD⟩, ⟨"2", (32, 21)⟩, ⟨"3", (32, 21)⟩],
    correspondence := some
      [⟨0, "cap", (0, 0), (0, 0), STANDARD⟩,
       ⟨0, "cap", (0, 0), (32, 0), STANDARD⟩,
       ⟨0, "cap", (0, 0), (0, 32), STANDARD⟩,
       ⟨0, "cap", (0, 0), (32, 32), STANDARD⟩] }

def BrimmedHat : DesignType :=
  { name := "brimmed-hat", type_code := 114,
    external_layers := [⟨"top", (36, 36)⟩, ⟨"middle", (64, 19)⟩, ⟨"bottom", (64, 9)⟩],
    internal_layers := standardLayerList 4,
    correspondence := some
      [⟨0, "top", (14, 0), (0, 0), (18, 32)⟩,
       ⟨1, "top", (0, 0), (18, 0), (18, 32)⟩,
       ⟨2, "top", (14, 0), (0, 32), (18, 4)⟩,
       ⟨3, "top", (0, 0), (18, 32), (18, 4)⟩,
       ⟨2, "middle", (0, 4), (0, 0), (32, 19)⟩,
       ⟨3, "middle", (0, 4), (32, 0), (32, 19)⟩,
       ⟨2, "bottom", (0, 23), (0, 0), (32, 9)⟩,
       ⟨3, "bottom", (0, 23), (32, 0), (32, 9)⟩] }

/-- The registry filled by `__init_subclass__`, in class declaration order. -/
def registeredTypes : List DesignType :=
  [BasicDesign, TankTop, ShortSleeveTee, LongSleeveDressShirt, Sweater, Hoodie,
   SleevelessDress, Coat, ShortSleeveDress, LongSleeveDress, RoundDress,
   BalloonHemDress, Robe, BrimmedCap, KnitCap, BrimmedHat]

/-- C10 (implicit): for a one-to-one design type, `internalize` returns the
supplied images in the insertion order of the layer mapping — not in the
type's declared external-layer order — so identical bindings in different
insertion orders internalize to differently ordered layer lists. -/
theorem C10_internalize_insertion_order :
    (∀ t ∈ registeredTypes, t.correspondence = none →
      ∀ imgs : List (String × Img),
        Design.internalize t imgs = .ok (imgs.map (fun p => p.2)))
    ∧ (∀ imgA imgB : Img,
        Design.internalize TankTop [("back", imgA), ("front", imgB)] = .ok [imgA, imgB]
        ∧ Design.internalize TankTop [("front", imgB), ("back", imgA)] = .ok [imgB, imgA])
    ∧ ∃ imgA imgB : Img, imgA ≠ imgB ∧ ([imgA, imgB] : List Img) ≠ [imgB, imgA] := by
  refine ⟨?_, ?_, ⟨32, 32, fun _ _ => 0⟩, ⟨32, 32, fun _ _ => 1⟩, ?_, ?_⟩
  · intro t _ hc imgs
    rw [Design.internalize, hc]
  · intro imgA imgB
    exact ⟨rfl, rfl⟩
  · intro h
    have := congrArg (fun i => i.px 0 0) h
    simp at this
  · intro h
    injection h with h1 _
    have := congrArg (fun i => i.px 0 0) h1
    simp at this

/-- Witness for C10: the one-to-one branch evaluated on a concrete design. -/
theorem C10_internalize_insertion_order_witness :
    Design.internalize BasicDesign [("0", Layer.as_wand ⟨"0", STANDARD⟩)]
      = .ok [Layer.as_wand ⟨"0", STANDARD⟩] :=
  C10_internalize_insertion_order.1 BasicDesign (by decide) rfl
    [("0", Layer.as_wand ⟨"0", STANDARD⟩)]

theorem validateLayers_missing (imgs : List (String × Img)) (l : Layer) (post : List Layer) :
    ∀ pre : List Layer,
      (∀ l' ∈ pre, ∃ img, imgs.lookup l'.name = some img ∧ (img.width, img.height) = l'.size) →
      imgs.lookup l.name = none →
      validateLayers imgs (pre ++ l :: post) = .error (.missingLayerEnc l)
  | [] => by
    intro _ hnone
    simp only [List.nil_append]
    rw [validateLayers, hnone]
  | l' :: pre' => by
    intro hpre hnone
    obtain ⟨img, hlook, hsize⟩ := hpre l' (List.mem_cons_self ..)
    have hv : l'.validate img = .ok () := by rw [Layer.validate, if_neg (by simp [hsize])]
    rw [List.cons_append]
    simp only [validateLayers, hlook, hv]
    exact validateLayers_missing imgs l post pre'
      (fun a ha => hpre a (List.mem_cons_of_mem _ ha)) hnone

theorem validateLayers_ok (imgs : List (String × Img)) :
    ∀ ls : List Layer,
      (∀ l ∈ ls, ∃ img, imgs.lookup l.name = some img ∧ (img.width, img.height) = l.size) →
      validateLayers imgs ls = .ok ()
  | [] => by intro _; rfl
  | l :: rest => by
    intro h
    obtain ⟨img, hlook, hsize⟩ := h l (List.mem_cons_self ..)
    have hv : l.validate img =.ok () := by rw [Layer.validate, if_neg (by simp [hsize])]
    simp only [validateLayers, hlook, hv]
    exact validateLayers_ok imgs rest (fun a ha => h a (List.mem_cons_of_mem _ ha))

/-- C5: with all supplied layers correctly sized, a design missing a declared
external layer fails validation with `MissingLayerError` carrying the first
absent declared layer, and a complete layer set with an extra supplied entry
fails with `InvalidLayerNameError` whose structured report lists exactly the
type's declared external layer names. -/
theorem C5_validate_errors :
    (∀ t ∈ registeredTypes, ∀ imgs : List (String × Img), ∀ pre l post,
      t.external_layers = pre ++ l :: post →
      (∀ l' ∈ pre, ∃ img, imgs.lookup l'.name = some img ∧ (img.width, img.height) = l'.size) →
      imgs.lookup l.name = none →
      Design.validate t imgs = .error (.missingLayerEnc l))
    ∧ (∀ t ∈ registeredTypes, ∀ imgs : List (String × Img),
      (∀ l ∈ t.external_layers,
        ∃ img, imgs.lookup l.name = some img ∧ (img.width, img.height) = l.size) →
      t.external_layers.length < imgs.length →
      Design.validate t imgs
          = .error (.invalidLayerNameEnc (t.external_layers.map (fun l => l.name)))
        ∧ ∃ d, (AcnhErr.invalidLayerNameEnc (t.external_layers.map (fun l => l.name))).to_dict
            = .ok d
          ∧ d.lookup "valid_layer_names"
            = some (.strList (t.external_layers.map (fun l => l.name)))) := by
  constructor
  · intro t _ imgs pre l post hsplit hpre hnone
    rw [Design.validate, hsplit, validateLayers_missing imgs l post pre hpre hnone]
  · intro t _ imgs hall hlen
    refine ⟨?_, ?_⟩
    · rw [Design.validate, validateLayers_ok imgs _ hall, if_pos hlen]
    · exact ⟨_, rfl, rfl⟩

/-- Witness for C5 on `ShortSleeveTee`: a correctly sized "back" with no
"front" reports the missing "front" layer; a complete set plus an extra
"hood" layer reports the declared name list. -/
theorem C5_validate_errors_witness :
    Design.validate ShortSleeveTee [("back", Layer.as_wand ⟨"back", STANDARD⟩)]
      = .error (.missingLayerEnc ⟨"front", STANDARD⟩)
    ∧ Design.validate ShortSleeveTee
        [("back", Layer.as_wand ⟨"back", STANDARD⟩),
         ("front", Layer.as_wand ⟨"front", STANDARD⟩),
         ("right-sleeve", Layer.as_wand ⟨"right-sleeve", SHORT_SLEEVE⟩),
         ("left-sleeve", Layer.as_wand ⟨"left-sleeve", SHORT_SLEEVE⟩),
         ("hood", Layer.as_wand ⟨"hood", STANDARD⟩)]
      = .error (.invalidLayerNameEnc ["back", "front", "right-sleeve", "left-sleeve"]) := by
  constructor
  · exact C5_validate_errors.1 ShortSleeveTee (by decide)
      [("back", Layer.as_wand ⟨"back", STANDARD⟩)]
      [⟨"back", STANDARD⟩] ⟨"front", STANDARD⟩ SHORT_SLEEVE_LAYERS rfl
      (by
        intro l' hl'
        rw [List.mem_singleton] at hl'
        subst hl'
        exact ⟨Layer.as_wand ⟨"back", STANDARD⟩, rfl, rfl⟩)
      rfl
  · exact (C5_validate_errors.2 ShortSleeveTee (by decide)
      [("back", Layer.as_wand ⟨"back", STANDARD⟩),
       ("front", Layer.as_wand ⟨"front", STANDARD⟩),
       ("right-sleeve", Layer.as_wand ⟨"right-sleeve", SHORT_SLEEVE⟩),
       ("left-sleeve", Layer.as_wand ⟨"left-sleeve", SHORT_SLEEVE⟩),
       ("hood", Layer.as_wand ⟨"hood", STANDARD⟩)]
      (by
        intro l hl
        fin_cases hl
        · exact ⟨Layer.as_wand ⟨"back", STANDARD⟩, rfl, rfl⟩
        · exact ⟨Layer.as_wand ⟨"front", STANDARD⟩, rfl, rfl⟩
        · exact ⟨Layer.as_wand ⟨"right-sleeve", SHORT_SLEEVE⟩, rfl, rfl⟩
        · exact ⟨Layer.as_wand ⟨"left-sleeve", SHORT_SLEEVE⟩, rfl, rfl⟩)
      (by decide)).1

/-- A concrete 64×53 cap image whose pixel colors encode their position. -/
def capImgC7 : Img := { width := 64, height := 53, px := fun x y => x + 64 * y }

/-- C7: in the source, all four `KnitCap` correspondence entries write to
internal slot 0 at position (0, 0), so the quadrants of the cap image
successively overwrite layer 0 while internal layers 1–3 stay blank —
the four internal buffers do not receive four distinct regions.  The last
copied quadrant is the bottom-right one, so pixel (0, 0) of layer 0 ends up
holding source pixel (32, 32). -/
theorem C7_knitcap_quadrants_bug :
    (KnitCap.correspondence.getD []).map (fun c => c.internal_idx) = [0, 0, 0, 0]
    ∧ ∃ out, Design.internalize KnitCap [("cap", capImgC7)] = .ok out
      ∧ out.length = 4
      ∧ out.get? 1 = some (Layer.as_wand ⟨"1", STANDARD⟩)
      ∧ out.get? 2 = some (Layer.as_wand ⟨"2", (32, 21)⟩)
      ∧ out.get? 3 = some (Layer.as_wand ⟨"3", (32, 21)⟩)
      ∧ (out.get? 0).map (fun i => i.px 0 0) = some (capImgC7.px 32 32)
      ∧ capImgC7.px 32 32 ≠ capImgC7.px 0 0 := by
  refine ⟨rfl, _, rfl, rfl, rfl, rfl, rfl, ?_, by decide⟩
  rfl

/-! ## Design image codec (`acnh/designs/encode.py`) -/

/-- `struct.Struct('>L').unpack` on a 4-byte chunk: big-endian 32-bit value
(the source misnames this struct `LITTLE_ENDIAN_UINT32`). -/
def unpackBE (bs : List Nat) : Nat := bs.foldl (fun a b => a * 256 + b) 0

/-- The four big-endian bytes of a 32-bit color value. -/
def bytesOfColor (c : Nat) : List Nat :=
  [c / 2 ^ 24 % 256, c / 2 ^ 16 % 256, c / 2 ^ 8 % 256, c % 256]

/-- `image.export_pixels()`: the raw pixel buffer, row-major, four bytes per
pixel. -/
def exportPixels (img : Img) : List Nat :=
  ((List.range img.height).map (fun y =>
    ((List.range img.width).map (fun x => bytesOfColor (img.px x y))).flatten)).flatten

/-- One step of the `gen_palette` loop: record a first-seen color at the next
index, leave a known color alone. -/
def paletteInsert (pal : List (Nat × Nat)) (color_i : Nat) (color : Nat) :
    List (Nat × Nat) × Nat :=
  match pal.lookup color with
  | some _ => (pal, color_i)
  | none => (pal ++ [(color, color_i)], color_i + 1)

/-- The `gen_palette` loop over one pixel buffer: unpack each 4-byte chunk and
insert its color; a short final chunk is a `struct.error`. -/
def genPaletteBuf (pxs : List Nat) (st : List (Nat × Nat) × Nat) :
    Except PyErr (List (Nat × Nat) × Nat) :=
  (chunked 4 pxs).foldlM
    (fun st chunk =>
      if chunk.length = 4 then .ok (paletteInsert st.1 st.2 (unpackBE chunk))
      else .error .runtimeFault)
    st

/-- `gen_palette` from `acnh/designs/encode.py`: build the first-seen-order
color-to-index map over all buffers and raise `InvalidPaletteError` (the
encode-module kind, code 27) when it exceeds `PALETTE_SIZE` entries. -/
def gen_palette (pxss : List (List Nat)) : Except PyErr (List (Nat × Nat)) :=
  match pxss.foldlM (fun st pxs => genPaletteBuf pxs st) ([], 0) with
  | .error e => .error e
  | .ok (pal, _) =>
    if PALETTE_SIZE < pal.length then .error (.acnh .invalidPaletteEnc) else .ok pal

/-- The loop body of `encode_image`: `struct.unpack_from('>LL', chunk)` reads
the chunk's first eight bytes as two big-endian 32-bit pixels (a
`struct.error` on a shorter chunk), both are looked up in the palette (a
`KeyError` on an unknown color) and `palette[px2] << 4 | palette[px1]` is
written as one byte (`int.to_bytes(1, 'big')` raising `OverflowError` at
256 or more). -/
def encodeChunk (palette : List (Nat × Nat)) (chunk : List Nat) : Except PyErr Nat :=
  if 8 ≤ chunk.length then
    match palette.lookup (unpackBE (chunk.take 4)),
        palette.lookup (unpackBE ((chunk.drop 4).take 4)) with
    | some i1, some i2 =>
        if i2 <<< 4 ||| i1 < 256 then .ok (i2 <<< 4 ||| i1) else .error .runtimeFault
    | _, _ => .error .runtimeFault
  else .error .runtimeFault

/-- `encode_image` from `acnh/designs/encode.py`: one packed byte per 8-byte
chunk of the pixel buffer. -/
def encode_image (palette : List (Nat × Nat)) (pxs : List Nat) :
    Except PyErr (List Nat) :=
  (chunked 8 pxs).mapM (encodeChunk palette)

/-- The image-data record assembled by `encode_image_data` (`mPalette`,
`mData`, and the fixed `DUMMY_EXTRA_METADATA` fields). -/
structure ImgData where
  mPalette : List (String × Nat)
  mData : List (String × List Nat)
  mAuthorVId : Nat
  mAuthorPId : Nat
  mAuthorGender : Nat
  mFlg : Nat
  mClSet : Nat
deriving Repr

/-- One iteration of the `for i, pxs in enumerate(pxss)` loop of
`encode_image_data`: `layers[str(i)] = encode_image(palette, pxs)`. -/
def encodeLayerEntry (palette : List (Nat × Nat)) (p : Nat × List Nat) :
    Except PyErr (String × List Nat) :=
  match encode_image palette p.2 with
  | .error e => .error e
  | .ok bs => .ok (toString p.1, bs)

/-- `encode_image_data` from `acnh/designs/encode.py`. -/
def encode_image_data (pxss : List (List Nat)) : Except PyErr ImgData :=
  match gen_palette pxss with
  | .error e => .error e
  | .ok palette =>
    match pxss.enum.mapM (encodeLayerEntry palette) with
    | .error e => .error e
    | .ok layers =>
      .ok { mPalette := palette.map (fun q => (toString q.2, q.1))
              ++ [(toString PALETTE_SIZE, 0)],
            mData := layers,
            mAuthorVId := 4255292630, mAuthorPId := 2422107098, mAuthorGender := 0,
            mFlg := 2, mClSet := 238 }

/-- `encode_pro` from `acnh/designs/encode.py`: validate, internalize, export
each internal layer's pixels, build the shared palette (a palette overflow is
fatal here — no quantization), and assemble the image data. -/
def encode_pro (t : DesignType) (imgs : List (String × Img)) :
    Except PyErr (Bool × ImgData) :=
  match Design.validate t imgs with
  | .error e => .error (.acnh e)
  | .ok _ =>
    match Design.internalize t imgs with
    | .error e => .error e
    | .ok lays =>
      let pxss := lays.map exportPixels
      match gen_palette pxss with
      | .error e => .error e
      | .ok _ =>
        match encode_image_data pxss with
        | .error e => .error e
        | .ok d => .ok (false, d)

/-! ### Palette lemmas -/

/-- The pure palette fold over an already-unpacked color sequence. -/
def paletteFold (st : List (Nat × Nat) × Nat) (colors : List Nat) :
    List (Nat × Nat) × Nat :=
  colors.foldl (fun s c => paletteInsert s.1 s.2 c) st

/-- The 32-bit colors of one pixel buffer, in order. -/
def colorsOfBuf (pxs : List Nat) : List Nat := (chunked 4 pxs).map unpackBE

/-- The 32-bit colors of a list of pixel buffers, buffer by buffer. -/
def colorsOf (pxss : List (List Nat)) : List Nat := (pxss.map colorsOfBuf).flatten

theorem lookup_isSome_iff_mem_keys (l : List (Nat × Nat)) (c : Nat) :
    (l.lookup c).isSome ↔ c ∈ l.map Prod.fst := by
  induction l with
  | nil => simp [List.lookup]
  | cons p t ih =>
    rw [List.lookup]
    by_cases h : c = p.1
    · simp [h]
    · have : (c == p.1) = false := beq_false_of_ne h
      simp [this, ih, h]

theorem lookup_append_of_isSome {l : List (Nat × Nat)} {c : Nat}
    (h : (l.lookup c).isSome) (l' : List (Nat × Nat)) :
    (l ++ l').lookup c = l.lookup c := by
  induction l with
  | nil => simp [List.lookup] at h
  | cons p t ih =>
    rw [List.cons_append, List.lookup, List.lookup]
    by_cases hc : c = p.1
    · simp [hc]
    · have hb : (c == p.1) = false := beq_false_of_ne hc
      rw [hb]
      rw [List.lookup, hb] at h
      exact ih h

theorem lookup_append_self {l : List (Nat × Nat)} {c : Nat}
    (h : l.lookup c = none) (i : Nat) :
    (l ++ [(c, i)]).lookup c = some i := by
  induction l with
  | nil => simp [List.lookup]
  | cons p t ih =>
    rw [List.lookup] at h
    rw [List.cons_append, List.lookup]
    by_cases hc : c = p.1
    · rw [show (c == p.1) = true from beq_iff_eq.mpr hc] at h ⊢
      simp at h
    · have hb : (c == p.1) = false := beq_false_of_ne hc
      rw [hb] at h ⊢
      exact ih h

theorem paletteInsert_lookup_mono {pal : List (Nat × Nat)} {c : Nat}
    (h : (pal.lookup c).isSome) (i c' : Nat) :
    (((paletteInsert pal i c').1).lookup c).isSome := by
  rw [paletteInsert]
  match hl : pal.lookup c' with
  | some _ => exact h
  | none =>
    show (((pal ++ [(c', i)]).lookup c)).isSome
    rw [lookup_append_of_isSome h]
    exact h

theorem paletteInsert_lookup_self (pal : List (Nat × Nat)) (i c : Nat) :
    (((paletteInsert pal i c).1).lookup c).isSome := by
  rw [paletteInsert]
  match hl : pal.lookup c with
  | some _ => simp [hl]
  | none =>
    show (((pal ++ [(c, i)]).lookup c)).isSome
    rw [lookup_append_self hl]
    rfl

theorem paletteFold_lookup_mono :
    ∀ (colors : List Nat) (st : List (Nat × Nat) × Nat) (c : Nat),
      ((st.1).lookup c).isSome → (((paletteFold st colors).1).lookup c).isSome
  | [] => fun _ _ h => h
  | c' :: rest => by
    intro st c h
    rw [paletteFold, List.foldl_cons]
    exact paletteFold_lookup_mono rest _ c (paletteInsert_lookup_mono h st.2 c')

theorem paletteFold_lookup_self :
    ∀ (colors : List Nat) (st : List (Nat × Nat) × Nat),
      ∀ c ∈ colors, (((paletteFold st colors).1).lookup c).isSome
  | [] => by intro _ c hc; simp at hc
  | c' :: rest => by
    intro st c hc
    rw [paletteFold, List.foldl_cons]
    rcases List.mem_cons.mp hc with rfl | hc
    · exact paletteFold_lookup_mono rest _ c (paletteInsert_lookup_self st.1 st.2 c)
    · exact paletteFold_lookup_self rest _ c hc

theorem paletteInsert_keys_nodup {pal : List (Nat × Nat)}
    (h : (pal.map Prod.fst).Nodup) (i c : Nat) :
    (((paletteInsert pal i c).1).map Prod.fst).Nodup := by
  rw [paletteInsert]
  match hl : pal.lookup c with
  | some _ => exact h
  | none =>
    show ((pal ++ [(c, i)]).map Prod.fst).Nodup
    rw [List.map_append]
    rw [List.nodup_append]
    refine ⟨h, List.nodup_singleton _, ?_⟩
    intro a ha hb
    rw [List.mem_map] at hb
    simp only [List.mem_singleton] at hb
    obtain ⟨p, hp, hfst⟩ := hb
    subst hp
    have : (pal.lookup a).isSome := (lookup_isSome_iff_mem_keys pal a).mpr ha
    rw [show a = c from hfst ▸ rfl] at this
    rw [hl] at this
    simp at this

theorem paletteFold_keys_nodup :
    ∀ (colors : List Nat) (st : List (Nat × Nat) × Nat),
      ((st.1).map Prod.fst).Nodup → (((paletteFold st colors).1).map Prod.fst).Nodup
  | [] => fun _ h => h
  | c' :: rest => by
    intro st h
    rw [paletteFold, List.foldl_cons]
    exact paletteFold_keys_nodup rest _ (paletteInsert_keys_nodup h st.2 c')

theorem colorsOfBuf_cons (pxs : List Nat) (h4 : 4 ≤ pxs.length) :
    colorsOfBuf pxs = unpackBE (pxs.take 4) :: colorsOfBuf (pxs.drop 4) := by
  rw [colorsOfBuf, chunked_cons_of_length_ge 4 (by decide) pxs h4, List.map_cons, colorsOfBuf]

theorem genPaletteBuf_ok :
    ∀ pxs : List Nat, pxs.length % 4 = 0 → ∀ st,
      genPaletteBuf pxs st = .ok (paletteFold st (colorsOfBuf pxs))
  | [] => by intro _ st; rfl
  | x :: xs => by
    intro h st
    have h4 : 4 ≤ (x :: xs).length := by
      simp only [List.length_cons] at h ⊢
      omega
    have htk : ((x :: xs).take 4).length = 4 := by
      rw [List.length_take]
      omega
    have hdr : ((x :: xs).drop 4).length % 4 = 0 := by
      rw [List.length_drop]
      simp only [List.length_cons] at h ⊢
      omega
    rw [genPaletteBuf, chunked_cons_of_length_ge 4 (by decide) _ h4, List.foldlM_cons]
    rw [if_pos htk]
    show genPaletteBuf ((x :: xs).drop 4) (paletteInsert st.1 st.2 (unpackBE ((x :: xs).take 4)))
      = _
    rw [genPaletteBuf_ok ((x :: xs).drop 4) hdr _]
    rw [colorsOfBuf_cons _ h4]
    rfl
termination_by pxs => pxs.length
decreasing_by
  simp only [List.length_drop, List.length_cons]
  omega

theorem paletteFold_append (st : List (Nat × Nat) × Nat) (a b : List Nat) :
    paletteFold st (a ++ b) = paletteFold (paletteFold st a) b := by
  rw [paletteFold, paletteFold, paletteFold, List.foldl_append]

theorem gen_palette_fold (pxss : List (List Nat))
    (hdiv : ∀ pxs ∈ pxss, pxs.length % 4 = 0) :
    pxss.foldlM (fun st pxs => genPaletteBuf pxs st) (([], 0) : List (Nat × Nat) × Nat)
      = .ok (paletteFold ([], 0) (colorsOf pxss)) := by
  suffices h : ∀ st, pxss.foldlM (fun st pxs => genPaletteBuf pxs st) st
      = .ok (paletteFold st (colorsOf pxss)) from h _
  induction pxss with
  | nil => intro st; rfl
  | cons pxs rest ih =>
    intro st
    rw [List.foldlM_cons, genPaletteBuf_ok pxs (hdiv pxs (List.mem_cons_self ..)) st]
    show rest.foldlM (fun st pxs => genPaletteBuf pxs st) (paletteFold st (colorsOfBuf pxs)) = _
    rw [ih (fun p hp => hdiv p (List.mem_cons_of_mem _ hp))]
    rw [show colorsOf (pxs :: rest) = colorsOfBuf pxs ++ colorsOf rest from rfl,
      paletteFold_append]

theorem sixteen_colors_length (pal : List (Nat × Nat)) (cs : List Nat)
    (hnodup : cs.Nodup) (hlen : cs.length = 16)
    (hmem : ∀ c ∈ cs, (pal.lookup c).isSome) :
    16 ≤ pal.length := by
  have hsub : cs.toFinset ⊆ (pal.map Prod.fst).toFinset := by
    intro c hc
    rw [List.mem_toFinset] at hc ⊢
    exact (lookup_isSome_iff_mem_keys pal c).mp (hmem c hc)
  calc 16 = cs.length := hlen.symm
    _ = cs.toFinset.card := (List.toFinset_card_of_nodup hnodup).symm
    _ ≤ (pal.map Prod.fst).toFinset.card := Finset.card_le_card hsub
    _ ≤ (pal.map Prod.fst).length := (pal.map Prod.fst).toFinset_card_le
    _ = pal.length := by rw [List.length_map]

/-- Shared core for C2: sixteen distinct colors across 4-byte-aligned buffers
make `gen_palette` raise the encode-module `InvalidPaletteError`. -/
theorem gen_palette_overflow (pxss : List (List Nat))
    (hdiv : ∀ pxs ∈ pxss, pxs.length % 4 = 0)
    (hcolors : ∃ cs : List Nat, cs.Nodup ∧ cs.length = 16 ∧ ∀ c ∈ cs, c ∈ colorsOf pxss) :
    gen_palette pxss = .error (.acnh .invalidPaletteEnc) := by
  obtain ⟨cs, hnodup, hlen, hmem⟩ := hcolors
  have h16 : 16 ≤ (paletteFold ([], 0) (colorsOf pxss)).1.length :=
    sixteen_colors_length _ cs hnodup hlen
      (fun c hc => paletteFold_lookup_self (colorsOf pxss) ([], 0) c (hmem c hc))
  rw [gen_palette, gen_palette_fold pxss hdiv]
  rcases hpf : paletteFold ([], 0) (colorsOf pxss) with ⟨pal, cnt⟩
  rw [hpf] at h16
  simp only []
  rw [if_pos (by rw [PALETTE_SIZE]; exact h16)]

theorem flatten_length_mod4 :
    ∀ ls : List (List Nat), (∀ l ∈ ls, l.length % 4 = 0) → ls.flatten.length % 4 = 0
  | [] => by intro _; rfl
  | l :: rest => by
    intro h
    rw [List.flatten_cons, List.length_append]
    have h1 := h l (List.mem_cons_self ..)
    have h2 := flatten_length_mod4 rest (fun a ha => h a (List.mem_cons_of_mem _ ha))
    omega

theorem exportPixels_mod4 (img : Img) : (exportPixels img).length % 4 = 0 := by
  rw [exportPixels]
  apply flatten_length_mod4
  intro row hrow
  rw [List.mem_map] at hrow
  obtain ⟨y, _, rfl⟩ := hrow
  apply flatten_length_mod4
  intro l hl
  rw [List.mem_map] at hl
  obtain ⟨x, _, rfl⟩ := hl
  simp [bytesOfColor]

/-- Shared core for C2 at the `encode_pro` level: a validated design whose
internalized buffers contain sixteen distinct colors fails with the
encode-module palette error, and no payload is produced. -/
theorem encode_pro_overflow (t : DesignType) (imgs : List (String × Img))
    (lays : List Img)
    (hv : Design.validate t imgs = .ok ())
    (hin : Design.internalize t imgs = .ok lays)
    (hcolors : ∃ cs : List Nat, cs.Nodup ∧ cs.length = 16
      ∧ ∀ c ∈ cs, c ∈ colorsOf (lays.map exportPixels)) :
    encode_pro t imgs = .error (.acnh .invalidPaletteEnc) := by
  have hdiv : ∀ pxs ∈ lays.map exportPixels, pxs.length % 4 = 0 := by
    intro pxs hpxs
    rw [List.mem_map] at hpxs
    obtain ⟨img, _, rfl⟩ := hpxs
    exact exportPixels_mod4 img
  simp only [encode_pro, hv, hin]
  rw [gen_palette_overflow (lays.map exportPixels) hdiv hcolors]

/-- C2 amended: a design encoded via the pro path whose layers collectively
hold 16 or more distinct colors fails with the *encode-module*
`InvalidPaletteError`, whose numeric code is 27 — not 208, the code of the
identically-named kind in `acnh/errors.py` — and, the error propagating out
of `encode_pro`, no partial payload is returned. -/
theorem C2_palette_overflow (t : DesignType) (imgs : List (String × Img))
    (lays : List Img)
    (_ht : t ∈ registeredTypes) (_hpro : t.pro = true)
    (hv : Design.validate t imgs = .ok ())
    (hin : Design.internalize t imgs = .ok lays)
    (hcolors : ∃ cs : List Nat, cs.Nodup ∧ cs.length = 16
      ∧ ∀ c ∈ cs, c ∈ colorsOf (lays.map exportPixels)) :
    encode_pro t imgs = .error (.acnh .invalidPaletteEnc)
      ∧ AcnhErr.code .invalidPaletteEnc = 27
      ∧ AcnhErr.code .invalidPaletteEnc ≠ 208 :=
  ⟨encode_pro_overflow t imgs lays hv hin hcolors, rfl, by decide⟩

/-- A 32×32 test image using the sixteen colors 0..15, column-striped. -/
def imgC2 : Img := { width := 32, height := 32, px := fun x _ => x % 16 }

/-- C2 counterexample: a concrete 16-color pro design (a `TankTop`) makes the
pro encode path fail with the error kind whose numeric code is 27, not 208 as
the claim states. -/
theorem unpackBE_bytesOfColor (c : Nat) (h : c < 2 ^ 32) :
    unpackBE (bytesOfColor c) = c := by
  rw [bytesOfColor, unpackBE]
  simp only [List.foldl]
  norm_num
  omega

theorem chunked4_flatten_blocks :
    ∀ blocks : List (List Nat), (∀ b ∈ blocks, b.length = 4) →
      chunked 4 blocks.flatten = blocks
  | [] => by intro _; rfl
  | b :: rest => by
    intro h
    have hb : b.length = 4 := h b (List.mem_cons_self ..)
    rw [List.flatten_cons]
    rw [chunked_cons_of_length_ge 4 (by decide) _ (by rw [List.length_append]; omega)]
    rw [List.take_left' hb, List.drop_left' hb]
    rw [chunked4_flatten_blocks rest (fun a ha => h a (List.mem_cons_of_mem _ ha))]

theorem flatten_map_flatten (f : α → List (List Nat)) :
    ∀ l : List α,
      (l.map (fun a => (f a).flatten)).flatten = ((l.map f).flatten).flatten
  | [] => rfl
  | a :: l => by
    simp only [List.map_cons, List.flatten_cons, List.flatten_append]
    rw [flatten_map_flatten f l]

/-- The colors recovered by `gen_palette` from an exported pixel buffer are
exactly the image's pixel color values, row-major. -/
theorem colorsOfBuf_export (img : Img) (hpx : ∀ x y, img.px x y < 2 ^ 32) :
    colorsOfBuf (exportPixels img)
      = ((List.range img.height).map (fun y =>
          (List.range img.width).map (fun x => img.px x y))).flatten := by
  rw [colorsOfBuf, exportPixels]
  rw [flatten_map_flatten (fun y => (List.range img.width).map
    (fun x => bytesOfColor (img.px x y)))]
  rw [chunked4_flatten_blocks _ ?hlen]
  case hlen =>
    intro b hb
    rw [List.mem_flatten] at hb
    obtain ⟨row, hrow, hbrow⟩ := hb
    rw [List.mem_map] at hrow
    obtain ⟨y, _, rfl⟩ := hrow
    rw [List.mem_map] at hbrow
    obtain ⟨x, _, rfl⟩ := hbrow
    rfl
  simp only [List.map_flatten, List.map_map]
  congr 1
  apply List.map_congr_left
  intro y _
  simp only [Function.comp_apply, List.map_map]
  apply List.map_congr_left
  intro x _
  simp only [Function.comp_apply]
  exact unpackBE_bytesOfColor (img.px x y) (hpx x y)

theorem imgC2_colors (c : Nat) (hc : c < 16) :
    c ∈ colorsOf ([imgC2, imgC2].map exportPixels) := by
  rw [colorsOf]
  apply List.mem_flatten.mpr
  refine ⟨colorsOfBuf (exportPixels imgC2), by simp, ?_⟩
  rw [colorsOfBuf_export imgC2 (by intro x y; show x % 16 < 2 ^ 32; omega)]
  apply List.mem_flatten.mpr
  refine ⟨(List.range 32).map (fun x => imgC2.px x 0), ?_, ?_⟩
  · exact List.mem_map.mpr ⟨0, List.mem_range.mpr (by show (0:Nat) < 32; omega), rfl⟩
  · exact List.mem_map.mpr ⟨c, List.mem_range.mpr (by show c < 32; omega),
      Nat.mod_eq_of_lt hc⟩

/-- Witness for the amended C2 at the same concrete 16-color `TankTop`. -/
theorem C2_palette_overflow_witness :
    encode_pro TankTop [("back", imgC2), ("front", imgC2)]
        = .error (.acnh .invalidPaletteEnc)
      ∧ AcnhErr.code .invalidPaletteEnc = 27
      ∧ AcnhErr.code .invalidPaletteEnc ≠ 208 :=
  C2_palette_overflow TankTop [("back", imgC2), ("front", imgC2)] [imgC2, imgC2]
    (by decide) rfl rfl rfl
    ⟨List.range 16, List.nodup_range _, rfl,
      fun c hc => imgC2_colors c (List.mem_range.mp hc)⟩

/-- The 32-bit color of pixel `i` (0-based) of a raw pixel buffer. -/
def pixelColor (pxs : List Nat) (i : Nat) : Nat :=
  unpackBE ((pxs.drop (4 * i)).take 4)

theorem pixelColor_drop8 (pxs : List Nat) (i : Nat) :
    pixelColor (pxs.drop 8) i = pixelColor pxs (i + 2) := by
  rw [pixelColor, pixelColor, List.drop_drop]
  congr 2
  congr 1
  omega

theorem shift_or_lt (i1 i2 : Nat) (h1 : i1 ≤ 14) (h2 : i2 ≤ 14) :
    i2 <<< 4 ||| i1 < 256 := by
  have hs : i2 <<< 4 = i2 * 2 ^ 4 := Nat.shiftLeft_eq i2 4
  have h2' : i2 <<< 4 < 2 ^ 8 := by rw [hs]; norm_num; omega
  have h1' : i1 < 2 ^ 8 := by norm_num; omega
  calc i2 <<< 4 ||| i1 < 2 ^ 8 := Nat.or_lt_two_pow h2' h1'
    _ = 256 := by norm_num

/-- The pair-by-pair specification of `encode_image`, proved by induction on
the number of 8-byte chunks. -/
theorem encode_image_pairs (palette : List (Nat × Nat)) :
    ∀ (k : Nat) (pxs : List Nat), pxs.length = 8 * k →
      (∀ i < 2 * k, ∃ v, palette.lookup (pixelColor pxs i) = some v ∧ v ≤ 14) →
      ∃ out, encode_image palette pxs = .ok out
        ∧ out.length = pxs.length / 4 / 2
        ∧ ∀ j < k, ∀ i1 i2,
            palette.lookup (pixelColor pxs (2 * j)) = some i1 →
            palette.lookup (pixelColor pxs (2 * j + 1)) = some i2 →
            out.get? j = some (i2 <<< 4 ||| i1)
  | 0, pxs => by
    intro hlen _
    have : pxs = [] := List.eq_nil_of_length_eq_zero (by omega)
    subst this
    exact ⟨[], rfl, rfl, fun j hj => absurd hj (by omega)⟩
  | k + 1, pxs => by
    intro hlen hpx
    have h8 : 8 ≤ pxs.length := by omega
    obtain ⟨i1, h1, hi1⟩ := hpx 0 (by omega)
    obtain ⟨i2, h2, hi2⟩ := hpx 1 (by omega)
    have hdlen : (pxs.drop 8).length = 8 * k := by
      rw [List.length_drop]
      omega
    obtain ⟨out', hout', hlen', hidx'⟩ := encode_image_pairs palette k (pxs.drop 8) hdlen
      (fun i hi => by
        rw [pixelColor_drop8]
        exact hpx (i + 2) (by omega))
    have htk4 : (pxs.take 8).take 4 = pxs.take 4 := by
      rw [List.take_take]
      norm_num
    have hdk4 : ((pxs.take 8).drop 4).take 4 = (pxs.drop 4).take 4 := by
      rw [List.drop_take]
      rw [List.take_take]
      norm_num
    have hc0 : pixelColor pxs 0 = unpackBE (pxs.take 4) := by
      rw [pixelColor]
      rfl
    have hc1 : pixelColor pxs 1 = unpackBE ((pxs.drop 4).take 4) := by
      rw [pixelColor]
    refine ⟨(i2 <<< 4 ||| i1) :: out', ?_, ?_, ?_⟩
    · rw [encode_image, chunked_cons_of_length_ge 8 (by decide) pxs h8]
      rw [List.mapM_cons]
      have hch : encodeChunk palette (pxs.take 8) = .ok (i2 <<< 4 ||| i1) := by
        rw [encodeChunk, if_pos (by rw [List.length_take]; omega)]
        rw [htk4, hdk4, ← hc0, ← hc1, h1, h2]
        show (if i2 <<< 4 ||| i1 < 256 then Except.ok (i2 <<< 4 ||| i1)
          else Except.error PyErr.runtimeFault) = Except.ok (i2 <<< 4 ||| i1)
        rw [if_pos (shift_or_lt i1 i2 hi1 hi2)]
      rw [hch, ← encode_image, hout']
      rfl
    · simp only [List.length_cons, hlen', List.length_drop]
      omega
    · intro j hj j1 j2 hj1 hj2
      match j with
      | 0 =>
        rw [show (2 * 0 : Nat) = 0 from rfl, h1] at hj1
        rw [show (2 * 0 + 1 : Nat) = 1 from rfl, h2] at hj2
        injection hj1 with hj1
        injection hj2 with hj2
        subst hj1
        subst hj2
        rfl
      | j' + 1 =>
        show out'.get? j' = some (j2 <<< 4 ||| j1)
        apply hidx' j' (by omega)
        · rw [pixelColor_drop8]
          rw [show 2 * j' + 2 = 2 * (j' + 1) from by ring]
          exact hj1
        · rw [pixelColor_drop8]
          rw [show 2 * j' + 1 + 2 = 2 * (j' + 1) + 1 from by ring]
          exact hj2

/-- C4: on a pixel buffer of `2*k` four-byte pixels whose colors all map to
palette indices at most 14, `encode_image` succeeds; its output is exactly
one byte per consecutive pixel pair — `palette[second] <<< 4 ||| palette[first]`
— and its length is the pixel count divided by two. -/
theorem C4_encode_image (palette : List (Nat × Nat)) :
    ∀ (k : Nat) (pxs : List Nat), pxs.length = 8 * k →
      (∀ i < 2 * k, ∃ v, palette.lookup (pixelColor pxs i) = some v ∧ v ≤ 14) →
      ∃ out, encode_image palette pxs = .ok out
        ∧ out.length = pxs.length / 4 / 2
        ∧ ∀ j < k, ∀ i1 i2,
            palette.lookup (pixelColor pxs (2 * j)) = some i1 →
            palette.lookup (pixelColor pxs (2 * j + 1)) = some i2 →
            out.get? j = some (i2 <<< 4 ||| i1) :=
  encode_image_pairs palette

/-- A two-entry palette and a four-pixel buffer for the C4 witness. -/
def paletteC4 : List (Nat × Nat) := [(5, 0), (9, 1)]

/-- Big-endian bytes of the pixels 5, 9, 9, 5. -/
def pxsC4 : List Nat := [0, 0, 0, 5, 0, 0, 0, 9, 0, 0, 0, 9, 0, 0, 0, 5]

/-- Witness for C4 at a concrete palette and buffer. -/
theorem C4_encode_image_witness :
    ∃ out, encode_image paletteC4 pxsC4 = .ok out
      ∧ out.length = pxsC4.length / 4 / 2
      ∧ ∀ j < 2, ∀ i1 i2,
          paletteC4.lookup (pixelColor pxsC4 (2 * j)) = some i1 →
          paletteC4.lookup (pixelColor pxsC4 (2 * j + 1)) = some i2 →
          out.get? j = some (i2 <<< 4 ||| i1) :=
  C4_encode_image paletteC4 2 pxsC4 rfl
    (fun i hi => by
      interval_cases i
      · exact ⟨0, rfl, by decide⟩
      · exact ⟨1, rfl, by decide⟩
      · exact ⟨1, rfl, by decide⟩
      · exact ⟨0, rfl, by decide⟩)

/-! ## The two deviant taxonomy entries (`acnh/errors.py`) for C8 -/

/-- `InvalidLayerIndexError.http_status`: the base class only *annotates*
`http_status : ClassVar[int]`; neither `InvalidLayerIndexError` nor
`ACNHError` ever assigns it, so the attribute does not exist. -/
def InvalidLayerIndexError.http_status : Option Nat := none

/-- `InvalidLayerIndexError.code` (302) and `message`. -/
def InvalidLayerIndexError.code : Nat := 302

def InvalidLayerIndexError.message : String := "invalid image layer"

/-- `InvalidLayerIndexError.to_dict` from `acnh/errors.py`:
`super().to_dict()` reads `self.http_status`, raising `AttributeError`
(`.error ()`) since the class never assigns one; and even when a status were
present, the override stores `num_layers` into `d` but has no `return`
statement, so the call would yield Python `None` (`.ok none`). -/
def InvalidLayerIndexError.to_dict (num_layers : Nat) :
    Except Unit (Option (List (String × PyVal))) :=
  match ACNHError.to_dict InvalidLayerIndexError.message InvalidLayerIndexError.code
      InvalidLayerIndexError.http_status with
  | .error e => .error e
  | .ok d =>
    let _d := dictSet d "num_layers" (.nat num_layers)
    .ok none

/-- `CannotScaleThumbnailError` from `acnh/errors.py`: declared *without* the
`ACNHError` base — it carries these three class attributes but inherits no
`to_dict`, so it produces no structured report and is not even an
exception type. -/
def CannotScaleThumbnailError.code : Nat := 230

def CannotScaleThumbnailError.http_status : Nat := 400

def CannotScaleThumbnailError.message : String := "cannot scale thumbnails"

/-- C8: the base `ACNHError.to_dict` does produce the three required keys for
every kind that assigns `message`, `code` and `http_status`, but the claim
fails on `InvalidLayerIndexError`: the class exposes no `http_status` value,
so its `to_dict` raises `AttributeError` instead of returning a report (and
its override lacks a `return` statement besides). -/
theorem C8_error_report_bug :
    (∀ (msg : String) (code hs : Nat), ∃ d,
      ACNHError.to_dict msg code (some hs) = .ok d
        ∧ d.lookup "error" = some (.str msg)
        ∧ d.lookup "error_code" = some (.nat code)
        ∧ d.lookup "http_status" = some (.nat hs))
    ∧ InvalidLayerIndexError.http_status = none
    ∧ InvalidLayerIndexError.to_dict 4 = .error () := by
  refine ⟨?_, rfl, rfl⟩
  intro msg code hs
  exact ⟨_, rfl, rfl, rfl, rfl⟩

/-! ### Success path of the pro encoder (for the C2 counterexample) -/

theorem lookup_mem : ∀ {l : List (Nat × Nat)} {c v : Nat}, l.lookup c = some v → (c, v) ∈ l
  | [], c, v => by intro h; simp [List.lookup] at h
  | ⟨a, b⟩ :: t, c, v => by
    intro h
    rw [List.lookup] at h
    by_cases hc : c = a
    · rw [show (c == (a, b).1) = true from beq_iff_eq.mpr hc] at h
      simp at h
      subst hc
      rw [← h]
      exact List.mem_cons_self ..
    · rw [show (c == (a, b).1) = false from beq_false_of_ne hc] at h
      exact List.mem_cons_of_mem _ (lookup_mem h)

theorem pixelColor_drop4 (pxs : List Nat) (i : Nat) :
    pixelColor (pxs.drop 4) i = pixelColor pxs (i + 1) := by
  rw [pixelColor, pixelColor, List.drop_drop]
  congr 2
  congr 1
  omega

theorem pixelColor_mem_colorsOfBuf :
    ∀ (i : Nat) (pxs : List Nat), 4 * i + 4 ≤ pxs.length →
      pixelColor pxs i ∈ colorsOfBuf pxs
  | 0, pxs => by
    intro h
    rw [colorsOfBuf_cons pxs (by omega)]
    rw [show pixelColor pxs 0 = unpackBE (pxs.take 4) from by rw [pixelColor]; rfl]
    exact List.mem_cons_self ..
  | i + 1, pxs => by
    intro h
    rw [colorsOfBuf_cons pxs (by omega), ← pixelColor_drop4 pxs i]
    exact List.mem_cons_of_mem _
      (pixelColor_mem_colorsOfBuf i (pxs.drop 4) (by rw [List.length_drop]; omega))

theorem paletteFold_keys_subset :
    ∀ (colors : List Nat) (st : List (Nat × Nat) × Nat) (k : Nat),
      k ∈ ((paletteFold st colors).1).map Prod.fst →
      k ∈ st.1.map Prod.fst ∨ k ∈ colors
  | [] => fun _ _ h => Or.inl h
  | c :: rest => fun st k h => by
    rw [paletteFold, List.foldl_cons] at h
    rcases paletteFold_keys_subset rest (paletteInsert st.1 st.2 c) k h with h' | h'
    · rw [paletteInsert] at h'
      cases hl : st.1.lookup c with
      | some v =>
        rw [hl] at h'
        exact Or.inl h'
      | none =>
        rw [hl] at h'
        simp only [List.map_append, List.mem_append] at h'
        rcases h' with h' | h'
        · exact Or.inl h'
        · simp at h'
          subst h'
          exact Or.inr (List.mem_cons_self ..)
    · exact Or.inr (List.mem_cons_of_mem _ h')

theorem paletteFold_index_bound :
    ∀ (colors : List Nat) (st : List (Nat × Nat) × Nat),
      st.2 = st.1.length → (∀ p ∈ st.1, p.2 < st.2) →
      ((paletteFold st colors).2 = (paletteFold st colors).1.length
        ∧ ∀ p ∈ (paletteFold st colors).1, p.2 < (paletteFold st colors).2)
  | [] => fun _ h1 h2 => ⟨h1, h2⟩
  | c :: rest => fun st h1 h2 => by
    rw [paletteFold, List.foldl_cons]
    apply paletteFold_index_bound rest (paletteInsert st.1 st.2 c)
    · rw [paletteInsert]
      cases hl : st.1.lookup c with
      | some v => exact h1
      | none =>
        show st.2 + 1 = (st.1 ++ [(c, st.2)]).length
        rw [List.length_append, List.length_singleton]
        omega
    · rw [paletteInsert]
      cases hl : st.1.lookup c with
      | some v => exact h2
      | none =>
        intro p hp
        show p.2 < st.2 + 1
        rcases List.mem_append.mp hp with hp | hp
        · have := h2 p hp
          omega
        · simp at hp
          subst hp
          omega

theorem nodup_subset_length {l S : List Nat} (hnodup : l.Nodup)
    (hsub : ∀ c ∈ l, c ∈ S) : l.length ≤ S.length := by
  calc l.length = l.toFinset.card := (List.toFinset_card_of_nodup hnodup).symm
    _ ≤ S.toFinset.card := Finset.card_le_card
        (fun c hc => List.mem_toFinset.mpr (hsub c (List.mem_toFinset.mp hc)))
    _ ≤ S.length := S.toFinset_card_le

/-- When all colors across the buffers come from at most 15 values, the
palette fits and `gen_palette` succeeds, mapping every occurring color to an
index at most 14. -/
theorem gen_palette_ok_of_small (pxss : List (List Nat))
    (hdiv : ∀ pxs ∈ pxss, pxs.length % 4 = 0)
    (S : List Nat) (hS : S.length ≤ 15)
    (hsub : ∀ c ∈ colorsOf pxss, c ∈ S) :
    ∃ pal, gen_palette pxss = .ok pal
      ∧ ∀ c ∈ colorsOf pxss, ∃ v, pal.lookup c = some v ∧ v ≤ 14 := by
  have hnodup : (((paletteFold ([], 0) (colorsOf pxss)).1).map Prod.fst).Nodup :=
    paletteFold_keys_nodup _ _ (by simp)
  have hkeys : ∀ k ∈ ((paletteFold ([], 0) (colorsOf pxss)).1).map Prod.fst, k ∈ S := by
    intro k hk
    rcases paletteFold_keys_subset (colorsOf pxss) ([], 0) k hk with h | h
    · simp at h
    · exact hsub k h
  have hlen : (paletteFold ([], 0) (colorsOf pxss)).1.length ≤ 15 := by
    have := nodup_subset_length hnodup hkeys
    rw [List.length_map] at this
    omega
  have hbound := paletteFold_index_bound (colorsOf pxss) ([], 0) rfl (by simp)
  have hsome := paletteFold_lookup_self (colorsOf pxss) ([], 0)
  rcases hpf : paletteFold ([], 0) (colorsOf pxss) with ⟨pal, cnt⟩
  rw [hpf] at hlen hbound hsome
  have hlen' : pal.length ≤ 15 := hlen
  have hbound1 : cnt = pal.length := hbound.1
  have hbound2 : ∀ p ∈ pal, p.2 < cnt := hbound.2
  have hsome' : ∀ c ∈ colorsOf pxss, (pal.lookup c).isSome := hsome
  refine ⟨pal, ?_, ?_⟩
  · rw [gen_palette, gen_palette_fold pxss hdiv, hpf]
    simp only []
    rw [if_neg (by rw [PALETTE_SIZE]; omega)]
  · intro c hc
    obtain ⟨v, hv⟩ := Option.isSome_iff_exists.mp (hsome' c hc)
    refine ⟨v, hv, ?_⟩
    have hmem := lookup_mem hv
    have := hbound2 (c, v) hmem
    omega

theorem encode_image_ok (pal : List (Nat × Nat)) (pxs : List Nat)
    (h8 : pxs.length % 8 = 0)
    (hcols : ∀ c ∈ colorsOfBuf pxs, ∃ v, pal.lookup c = some v ∧ v ≤ 14) :
    ∃ out, encode_image pal pxs = .ok out := by
  obtain ⟨out, hout, -, -⟩ := encode_image_pairs pal (pxs.length / 8) pxs (by omega)
    (fun i hi => hcols _ (pixelColor_mem_colorsOfBuf i pxs (by omega)))
  exact ⟨out, hout⟩

theorem except_ok_bind {ε α β : Type} (a : α) (f : α → Except ε β) :
    (Except.ok a : Except ε α) >>= f = f a := rfl

theorem mapM_enc_ok (pal : List (Nat × Nat)) :
    ∀ l : List (Nat × List Nat),
      (∀ p ∈ l, ∃ bs, encode_image pal p.2 = .ok bs) →
      ∃ out, l.mapM (encodeLayerEntry pal) = .ok out
  | [] => fun _ => ⟨[], rfl⟩
  | p :: rest => fun h => by
    obtain ⟨bs, hbs⟩ := h p (List.mem_cons_self ..)
    obtain ⟨out, hout⟩ := mapM_enc_ok pal rest (fun q hq => h q (List.mem_cons_of_mem _ hq))
    have hep : encodeLayerEntry pal p = .ok (toString p.1, bs) := by
      rw [encodeLayerEntry, hbs]
    refine ⟨(toString p.1, bs) :: out, ?_⟩
    rw [List.mapM_cons, hep, except_ok_bind, hout, except_ok_bind]
    rfl

theorem encode_image_data_ok (pxss : List (List Nat))
    (hdiv : ∀ pxs ∈ pxss, pxs.length % 4 = 0)
    (h8 : ∀ pxs ∈ pxss, pxs.length % 8 = 0)
    (S : List Nat) (hS : S.length ≤ 15)
    (hsub : ∀ c ∈ colorsOf pxss, c ∈ S) :
    ∃ d, encode_image_data pxss = .ok d := by
  obtain ⟨pal, hpal, hlook⟩ := gen_palette_ok_of_small pxss hdiv S hS hsub
  obtain ⟨layers, hlayers⟩ := mapM_enc_ok pal pxss.enum (fun p hp => by
    apply encode_image_ok pal p.2 (h8 p.2 (List.snd_mem_of_mem_enum hp))
    intro c hc
    apply hlook
    exact List.mem_flatten.mpr
      ⟨colorsOfBuf p.2, List.mem_map.mpr ⟨p.2, List.snd_mem_of_mem_enum hp, rfl⟩, hc⟩)
  rw [encode_image_data, hpal]
  simp only []
  rw [hlayers]
  exact ⟨_, rfl⟩

theorem length_flatten_const (f : α → List Nat) (n : Nat) :
    ∀ l : List α, (∀ a ∈ l, (f a).length = n) → ((l.map f).flatten).length = l.length * n
  | [] => by intro _; simp
  | a :: l => by
    intro h
    simp only [List.map_cons, List.flatten_cons, List.length_append, List.length_cons]
    rw [h a (List.mem_cons_self ..),
      length_flatten_const f n l (fun b hb => h b (List.mem_cons_of_mem _ hb))]
    ring

theorem exportPixels_length (img : Img) :
    (exportPixels img).length = img.height * (img.width * 4) := by
  rw [exportPixels]
  rw [length_flatten_const _ (img.width * 4) _ ?hrow]
  · rw [List.length_range]
  case hrow =>
    intro y _
    rw [length_flatten_const _ 4 _ (fun x _ => by simp [bytesOfColor])]
    rw [List.length_range]

/-- Success path of `encode_pro`: a validated, internalizable design whose
internalized buffers draw their colors from at most 15 values encodes
successfully and returns a payload. -/
theorem encode_pro_ok (t : DesignType) (imgs : List (String × Img)) (lays : List Img)
    (hv : Design.validate t imgs = .ok ())
    (hin : Design.internalize t imgs = .ok lays)
    (h8 : ∀ img ∈ lays, (exportPixels img).length % 8 = 0)
    (S : List Nat) (hS : S.length ≤ 15)
    (hsub : ∀ c ∈ colorsOf (lays.map exportPixels), c ∈ S) :
    ∃ d, encode_pro t imgs = .ok (false, d) := by
  have hdiv : ∀ pxs ∈ lays.map exportPixels, pxs.length % 4 = 0 := by
    intro pxs hpxs
    obtain ⟨img, -, rfl⟩ := List.mem_map.mp hpxs
    exact exportPixels_mod4 img
  have h8' : ∀ pxs ∈ lays.map exportPixels, pxs.length % 8 = 0 := by
    intro pxs hpxs
    obtain ⟨img, himg, rfl⟩ := List.mem_map.mp hpxs
    exact h8 img himg
  obtain ⟨pal, hpal, -⟩ := gen_palette_ok_of_small _ hdiv S hS hsub
  obtain ⟨d, hd⟩ := encode_image_data_ok _ hdiv h8' S hS hsub
  refine ⟨d, ?_⟩
  simp only [encode_pro, hv, hin]
  rw [hpal]
  simp only []
  rw [hd]

/-- A 64×53 cap image for the C2 counterexample: seventeen distinct colors in
total, sixteen of them (1..16) confined to the left half `x < 32`, and the
constant color 17 on the right half. -/
def capImgKC : Img :=
  { width := 64, height := 53, px := fun x _ => if x < 32 then x % 16 + 1 else 17 }

/-- The image that `KnitCap.internalize` leaves in internal slot 0 for
`capImgKC`: the four quadrant copies stacked onto the blank canvas, all at
slot 0 and position (0, 0), exactly as `applyCorrespondences` builds it. -/
def knitSlot0 : Img :=
  Design.copy (Design.copy (Design.copy (Design.copy (Layer.as_wand ⟨"0", STANDARD⟩)
    capImgKC (0, 0) (0, 0) STANDARD) capImgKC (0, 0) (32, 0) STANDARD)
    capImgKC (0, 0) (0, 32) STANDARD) capImgKC (0, 0) (32, 32) STANDARD

/-- The full internalize output for the C2 KnitCap counterexample design. -/
def knitLays : List Img :=
  [knitSlot0, Layer.as_wand ⟨"1", STANDARD⟩, Layer.as_wand ⟨"2", (32, 21)⟩,
   Layer.as_wand ⟨"3", (32, 21)⟩]

theorem knit_internalize :
    Design.internalize KnitCap [("cap", capImgKC)] = .ok knitLays := rfl

theorem knitSlot0_px (x y : Nat) (hx : x < 32) (hy : y < 32) :
    knitSlot0.px x y = 17 := by
  simp only [knitSlot0, Design.copy, Img.compositeAt, Img.crop, Layer.as_wand,
    capImgKC, STANDARD, STANDARD_WIDTH, STANDARD_HEIGHT]
  norm_num
  split_ifs <;> omega

theorem knitSlot0_px_le (x y : Nat) : knitSlot0.px x y ≤ 17 := by
  simp only [knitSlot0, Design.copy, Img.compositeAt, Img.crop, Layer.as_wand,
    capImgKC, STANDARD, STANDARD_WIDTH, STANDARD_HEIGHT]
  norm_num
  split_ifs <;> omega

/-- Reading a color out of an exported buffer exhibits a source pixel. -/
theorem mem_export_colors {img : Img} (hpx32 : ∀ x y, img.px x y < 2 ^ 32) {c : Nat}
    (hc : c ∈ colorsOfBuf (exportPixels img)) :
    ∃ x y, x < img.width ∧ y < img.height ∧ img.px x y = c := by
  rw [colorsOfBuf_export img hpx32] at hc
  obtain ⟨row, hrow, hcrow⟩ := List.mem_flatten.mp hc
  obtain ⟨y, hy, rfl⟩ := List.mem_map.mp hrow
  obtain ⟨x, hxmem, hpx⟩ := List.mem_map.mp hcrow
  exact ⟨x, y, List.mem_range.mp hxmem, List.mem_range.mp hy, hpx⟩

theorem knit_colors_sub : ∀ c ∈ colorsOf (knitLays.map exportPixels), c ∈ [17, 0] := by
  intro c hc
  rw [colorsOf] at hc
  obtain ⟨cols, hcols, hccols⟩ := List.mem_flatten.mp hc
  obtain ⟨pxs, hpxs, rfl⟩ := List.mem_map.mp hcols
  obtain ⟨img, himg, rfl⟩ := List.mem_map.mp hpxs
  rw [knitLays] at himg
  simp only [List.mem_cons, List.not_mem_nil, or_false] at himg
  rcases himg with rfl | rfl | rfl | rfl
  · obtain ⟨x, y, hx, hy, rfl⟩ := mem_export_colors
      (fun x y => lt_of_le_of_lt (knitSlot0_px_le x y) (by norm_num)) hccols
    rw [knitSlot0_px x y hx hy]
    exact List.mem_cons_self ..
  · obtain ⟨x, y, -, -, rfl⟩ := mem_export_colors (fun _ _ => by norm_num [Layer.as_wand]) hccols
    exact List.mem_cons_of_mem _ (List.mem_cons_self ..)
  · obtain ⟨x, y, -, -, rfl⟩ := mem_export_colors (fun _ _ => by norm_num [Layer.as_wand]) hccols
    exact List.mem_cons_of_mem _ (List.mem_cons_self ..)
  · obtain ⟨x, y, -, -, rfl⟩ := mem_export_colors (fun _ _ => by norm_num [Layer.as_wand]) hccols
    exact List.mem_cons_of_mem _ (List.mem_cons_self ..)

theorem knit_export_mod8 : ∀ img ∈ knitLays, (exportPixels img).length % 8 = 0 := by
  intro img himg
  rw [knitLays] at himg
  simp only [List.mem_cons, List.not_mem_nil, or_false] at himg
  rcases himg with rfl | rfl | rfl | rfl <;> (rw [exportPixels_length]; rfl)

/-- C2 counterexample, two parts against the original claim. (i) A concrete
16-color pro design (a `TankTop`) makes the pro encode path fail with the error
kind whose numeric code is 27, not 208 as the claim states. (ii) The claim's
quantification over the *supplied* layers is also wrong: a `KnitCap` design
whose supplied cap image carries 16 distinct colors (confined to the left half,
which `internalize` happens to discard) encodes successfully — palette overflow
is decided by the colors of the internalized buffers, not of the supplied
layers. -/
theorem C2_counterexample :
    (encode_pro TankTop [("back", imgC2), ("front", imgC2)]
        = .error (.acnh .invalidPaletteEnc)
      ∧ AcnhErr.code .invalidPaletteEnc ≠ 208)
    ∧ (∃ cs : List Nat, cs.Nodup ∧ cs.length = 16 ∧
        ∀ c ∈ cs, ∃ x y, x < capImgKC.width ∧ y < capImgKC.height ∧
          capImgKC.px x y = c)
    ∧ (∃ d, encode_pro KnitCap [("cap", capImgKC)] = .ok (false, d)) := by
  refine ⟨⟨?_, by decide⟩, ⟨(List.range 16).map (fun k => k + 1), ?_, by simp, ?_⟩, ?_⟩
  · apply encode_pro_overflow TankTop [("back", imgC2), ("front", imgC2)] [imgC2, imgC2]
      rfl rfl
    exact ⟨List.range 16, List.nodup_range _, rfl,
      fun c hc => imgC2_colors c (List.mem_range.mp hc)⟩
  · exact List.Nodup.map (fun a b h => by omega) (List.nodup_range _)
  · intro c hc
    obtain ⟨k, hk, rfl⟩ := List.mem_map.mp hc
    have hk16 := List.mem_range.mp hk
    refine ⟨k, 0, ?_, ?_, ?_⟩ <;> simp only [capImgKC]
    · omega
    · omega
    · rw [if_pos (by omega : k < 32), Nat.mod_eq_of_lt (by omega)]
  · exact encode_pro_ok KnitCap [("cap", capImgKC)] knitLays rfl knit_internalize
      knit_export_mod8 [17, 0] (by norm_num) knit_colors_sub
